import Mathlib

/-!
# Pong simulation core of `render.c`

A shallow embedding of the game logic of `src/src/render.c` (the structures
`Bat`, `Ball`, `Impact`, `Game`, the input globals, and the functions
`on_key`, `normalised`, `impact_add`, `impacts_update`, `reset_ball_toward`,
`new_game`, `p1_controls`, `p2_controls`, `ai_control`, `update_game`, `tick`).

Modelling conventions.

* C `float` values are exact rationals (`ℚ`): every comparison and every
  arithmetic operation of the source is kept, rounding, infinities and NaN
  are not modelled.
* C `int` fields are unbounded integers (`Int`); signed overflow is undefined
  in C and is not modelled.
* Flags that the source only ever assigns 0 or 1 (`key_*`, `space_down`,
  `last_up`, `last_down`, `isAI`, `music_started`) are `Bool`.
* `G.bats[2]` is the pair of fields `bats0`, `bats1`; `G.impacts[64]` is a
  function from indices to entries together with the counter `nImpacts`.
* The C library functions `sqrtf` and `rand` are not part of the repository:
  they are the two fields of `Libc`, and every function that calls one of them
  takes a `Libc`.  `rand_calls` counts the calls made to `rand` so far, so the
  n-th call returns `rand n`.
* Calls that only talk to the page, the audio system or the GPU
  (`ui_set_*`, `sfx_play`, `js_*`, `render`) do not change the simulation
  state and are left out.
-/

namespace Pong

/-! ## Configuration -/

def WIDTH : Int := 800
def HEIGHT : Int := 480
def PLAYER_SPEED : ℚ := 6
def MAX_AI_SPEED : ℚ := 6
def MAX_IMPACTS : Int := 64

/-- The local constant `halfW` of `update_game`: paddle half width. -/
def halfW : ℚ := 9
/-- The local constant `halfH` of `update_game`: paddle half height. -/
def halfH : ℚ := 64
/-- The local constant `R` of `update_game`: ball radius. -/
def R : ℚ := 7

/-! ## Game structures -/

inductive State where
  | ST_MENU
  | ST_PLAY
  | ST_OVER
deriving DecidableEq

structure Bat where
  x : ℚ
  y : ℚ
  score : Int
  timer : Int
  isAI : Bool
deriving DecidableEq

structure Ball where
  x : ℚ
  y : ℚ
  dx : ℚ
  dy : ℚ
  speed : Int
  prev_x : ℚ
deriving DecidableEq

structure Impact where
  x : ℚ
  y : ℚ
  time : Int
deriving DecidableEq

structure Game where
  bats0 : Bat
  bats1 : Bat
  ball : Ball
  impacts : Nat → Impact
  nImpacts : Int
  numPlayers : Int
  ai_offset : Int
  music_started : Bool
  state : State

/-- The C library functions the simulation calls. -/
structure Libc where
  sqrtf : ℚ → ℚ
  rand : Nat → Nat

/-- All mutable globals of `render.c` that the simulation reads or writes:
the game `G`, the key flags, the statics `last_up`, `last_down` of `tick`,
and the number of calls made to `rand`. -/
structure World where
  G : Game
  key_a : Bool
  key_z : Bool
  key_up : Bool
  key_down : Bool
  key_k : Bool
  key_m : Bool
  space_down : Bool
  last_up : Bool
  last_down : Bool
  rand_calls : Nat

/-- The fields of `EmscriptenKeyboardEvent` that `on_key` reads, with
`down` standing for `type==EMSCRIPTEN_EVENT_KEYDOWN`. -/
structure KeyEvent where
  down : Bool
  key : String
  code : String

/-! ## Input -/

def on_key (e : KeyEvent) (w : World) : World :=
  if e.key = "ArrowUp" then { w with key_up := e.down }
  else if e.key = "ArrowDown" then { w with key_down := e.down }
  else if e.key = "a" ∨ e.key = "A" then { w with key_a := e.down }
  else if e.key = "z" ∨ e.key = "Z" then { w with key_z := e.down }
  else if e.key = "k" ∨ e.key = "K" then { w with key_k := e.down }
  else if e.key = "m" ∨ e.key = "M" then { w with key_m := e.down }
  else if e.key = " " ∨ e.code = "Space" ∨ e.key = "Spacebar" then
    (if e.down then { w with space_down := true } else w)
  else w

/-! ## Math utils -/

def normalised (c : Libc) (x y : ℚ) : ℚ × ℚ :=
  let len := c.sqrtf (x * x + y * y)
  if len ≤ 0 then (0, 0) else (x / len, y / len)

/-! ## Game helpers -/

def impact_add (x y : ℚ) (g : Game) : Game :=
  if g.nImpacts < MAX_IMPACTS then
    { g with
      impacts := Function.update g.impacts g.nImpacts.toNat { x := x, y := y, time := 0 }
      nImpacts := g.nImpacts + 1 }
  else g

/-- The loop of `impacts_update`: `k` iterations remain, `i` is the read index,
`w` the write index, `a` the array. Returns the array and the final `w`. -/
def impacts_loop : Nat → Nat → Nat → (Nat → Impact) → (Nat → Impact) × Nat
  | 0, _, w, a => (a, w)
  | k + 1, i, w, a =>
    let im : Impact := { a i with time := (a i).time + 1 }
    if im.time < 10 then impacts_loop k (i + 1) (w + 1) (Function.update a w im)
    else impacts_loop k (i + 1) w a

def impacts_update (g : Game) : Game :=
  let r := impacts_loop g.nImpacts.toNat 0 0 g.impacts
  { g with impacts := r.1, nImpacts := (r.2 : Int) }

def reset_ball_toward (loser : Int) (g : Game) : Game :=
  { g with ball :=
    { x := (WIDTH : ℚ) / 2
      y := (HEIGHT : ℚ) / 2
      dx := if loser = 0 then -1 else 1
      dy := 0
      speed := 5
      prev_x := (WIDTH : ℚ) / 2 } }

def new_game (g : Game) : Game :=
  reset_ball_toward 1
    { g with
      bats0 := { x := 40, y := (HEIGHT : ℚ) / 2, score := 0, timer := 0, isAI := false }
      bats1 := { x := (WIDTH : ℚ) - 40, y := (HEIGHT : ℚ) / 2, score := 0, timer := 0,
                 isAI := decide (g.numPlayers = 1) }
      ai_offset := 0
      nImpacts := 0 }

def p1_controls (w : World) : ℚ :=
  if w.key_z ∨ w.key_down then PLAYER_SPEED
  else if w.key_a ∨ w.key_up then -PLAYER_SPEED
  else 0

def p2_controls (w : World) : ℚ :=
  if w.key_m then PLAYER_SPEED
  else if w.key_k then -PLAYER_SPEED
  else 0

def ai_control (right : Int) (g : Game) : ℚ :=
  let xdist := |g.ball.x - (if right ≠ 0 then g.bats1.x else g.bats0.x)|
  let t1 : ℚ := (HEIGHT : ℚ) / 2
  let t2 : ℚ := g.ball.y + (g.ai_offset : ℚ)
  let w1 : ℚ := max 0 (min 1 (xdist / ((WIDTH : ℚ) / 2)))
  let target := w1 * t1 + (1 - w1) * t2
  let delta := target - (if right ≠ 0 then g.bats1.y else g.bats0.y)
  let delta := if delta > MAX_AI_SPEED then MAX_AI_SPEED else delta
  let delta := if delta < -MAX_AI_SPEED then -MAX_AI_SPEED else delta
  delta

/-! ## `update_game`, phase by phase -/

/-- Lines 304-308: paddle deltas, clamp to [80, 400], timer decrement. -/
def paddles (w : World) : World :=
  let dy0 := p1_controls w
  let dy1 := if w.G.numPlayers = 2 then p2_controls w else ai_control 1 w.G
  let y0 := w.G.bats0.y + dy0
  let y0 := if y0 < 80 then 80 else y0
  let y0 := if y0 > 400 then 400 else y0
  let y1 := w.G.bats1.y + dy1
  let y1 := if y1 < 80 then 80 else y1
  let y1 := if y1 > 400 then 400 else y1
  { w with G := { w.G with
      bats0 := { w.G.bats0 with y := y0, timer := w.G.bats0.timer - 1 }
      bats1 := { w.G.bats1 with y := y1, timer := w.G.bats1.timer - 1 } } }

/-- Lines 313-315: record `prev_x`, advance the ball by `(dx, dy)`. -/
def move (w : World) : World :=
  { w with G := { w.G with ball := { w.G.ball with
      prev_x := w.G.ball.x
      x := w.G.ball.x + w.G.ball.dx
      y := w.G.ball.y + w.G.ball.dy } } }

/-- The clamp of `dy` to [-1, 1] after the spin is added (lines 326, 342). -/
def spin_dy (dy diff_y : ℚ) : ℚ :=
  let dy := dy + diff_y / 128
  let dy := if dy > 1 then 1 else dy
  if dy < -1 then -1 else dy

/-- Lines 322-336: the left paddle block. -/
def left_paddle (c : Libc) (w : World) : World :=
  if w.G.ball.x - R ≤ w.G.bats0.x + halfW ∧ w.G.ball.prev_x - R > w.G.bats0.x + halfW then
    let diff_y := w.G.ball.y - w.G.bats0.y
    if diff_y > -halfH ∧ diff_y < halfH then
      let d := normalised c (-w.G.ball.dx) (spin_dy w.G.ball.dy diff_y)
      let x := w.G.bats0.x + halfW + R
      { w with
        G := impact_add (x - d.1 * 10) w.G.ball.y
          { w.G with
            ball := { w.G.ball with dx := d.1, dy := d.2, x := x, speed := w.G.ball.speed + 1 }
            ai_offset := ((c.rand w.rand_calls % 21 : Nat) : Int) - 10
            bats0 := { w.G.bats0 with timer := 10 } }
        rand_calls := w.rand_calls + 1 }
    else w
  else w

/-- Lines 338-352: the right paddle block. -/
def right_paddle (c : Libc) (w : World) : World :=
  if w.G.ball.x + R ≥ w.G.bats1.x - halfW ∧ w.G.ball.prev_x + R < w.G.bats1.x - halfW then
    let diff_y := w.G.ball.y - w.G.bats1.y
    if diff_y > -halfH ∧ diff_y < halfH then
      let d := normalised c (-w.G.ball.dx) (spin_dy w.G.ball.dy diff_y)
      let x := w.G.bats1.x - halfW - R
      { w with
        G := impact_add (x - d.1 * 10) w.G.ball.y
          { w.G with
            ball := { w.G.ball with dx := d.1, dy := d.2, x := x, speed := w.G.ball.speed + 1 }
            ai_offset := ((c.rand w.rand_calls % 21 : Nat) : Int) - 10
            bats1 := { w.G.bats1 with timer := 10 } }
        rand_calls := w.rand_calls + 1 }
    else w
  else w

/-- Line 355: the top wall. -/
def wall_top (g : Game) : Game :=
  if g.ball.y - R ≤ 0 then
    impact_add g.ball.x R { g with ball := { g.ball with dy := |g.ball.dy|, y := R } }
  else g

/-- Line 356: the bottom wall. -/
def wall_bottom (g : Game) : Game :=
  if g.ball.y + R ≥ (HEIGHT : ℚ) then
    impact_add g.ball.x ((HEIGHT : ℚ) - R)
      { g with ball := { g.ball with dy := -|g.ball.dy|, y := (HEIGHT : ℚ) - R } }
  else g

def walls (w : World) : World :=
  { w with G := wall_bottom (wall_top w.G) }

/-- One iteration of the integration loop (lines 313-356). -/
def substep (c : Libc) (w : World) : World :=
  walls (right_paddle c (left_paddle c (move w)))

/-- The integration loop with `n` iterations left. -/
def integrate (c : Libc) : Nat → World → World
  | 0, w => w
  | n + 1, w => integrate c n (substep c w)

/-- The state at the scoring check: lines 304-359. -/
def pre_score (c : Libc) (w : World) : World :=
  let w1 := paddles w
  let w2 := integrate c w1.G.ball.speed.toNat w1
  { w2 with G := impacts_update w2.G }

def out_left (g : Game) : Bool := decide (g.ball.x + 7 < 0)
def out_right (g : Game) : Bool := decide (g.ball.x - 7 > (WIDTH : ℚ))

/-- Read access `G.bats[i]` for `i` in {0, 1}. -/
def bats (g : Game) (i : Int) : Bat := if i = 0 then g.bats0 else g.bats1

/-- Write access `G.bats[i] = b` for `i` in {0, 1}. -/
def set_bats (g : Game) (i : Int) (b : Bat) : Game :=
  if i = 0 then { g with bats0 := b } else { g with bats1 := b }

/-- Lines 362-373: the scoring block. -/
def scoring (g : Game) : Game :=
  if out_left g ∨ out_right g then
    let scorer : Int := if out_left g then 1 else 0
    let loser : Int := 1 - scorer
    if (bats g loser).timer < 0 then
      let g1 := set_bats g scorer { bats g scorer with score := (bats g scorer).score + 1 }
      set_bats g1 loser { bats g1 loser with timer := 20 }
    else if (bats g loser).timer = 0 then
      reset_ball_toward loser g
    else g
  else g

/-- Lines 376-378: the win check. -/
def win (g : Game) : Game :=
  if g.bats0.score ≥ 10 ∨ g.bats1.score ≥ 10 then { g with state := State.ST_OVER } else g

def update_game (c : Libc) (w : World) : World :=
  let w3 := pre_score c w
  { w3 with G := win (scoring w3.G) }

/-! ## Main loop -/

def tick (c : Libc) (w : World) : World :=
  match w.G.state with
  | State.ST_MENU =>
    let g1 := if w.key_up ∧ ¬ w.last_up then { w.G with numPlayers := 1 } else w.G
    let g2 := if w.key_down ∧ ¬ w.last_down then { g1 with numPlayers := 2 } else g1
    let w1 := { w with G := g2, last_up := w.key_up, last_down := w.key_down }
    if w1.space_down then
      let g3 := new_game { w1.G with music_started := true, state := State.ST_PLAY }
      { w1 with
        space_down := false
        G := { g3 with bats1 := { g3.bats1 with isAI := decide (g3.numPlayers = 1) } } }
    else w1
  | State.ST_PLAY => update_game c w
  | State.ST_OVER =>
    if w.space_down then
      { w with space_down := false, G := { w.G with state := State.ST_MENU, numPlayers := 1 } }
    else w

/-- One event of the host: a keyboard event or a frame of the main loop. -/
inductive Step where
  | key (e : KeyEvent)
  | frame

def step (c : Libc) (s : Step) (w : World) : World :=
  match s with
  | Step.key e => on_key e w
  | Step.frame => tick c w

/-- Run a sequence of host events, first to last. -/
def run (c : Libc) : List Step → World → World
  | [], w => w
  | s :: ss, w => run c ss (step c s w)

/-- Number of frames in a sequence of host events. -/
def frames : List Step → Nat
  | [] => 0
  | Step.key _ :: ss => frames ss
  | Step.frame :: ss => frames ss + 1

/-- The part of a paddle that only `new_game` and the paddle phase write. -/
def Bat.place (b : Bat) : ℚ × ℚ × Int × Bool := (b.x, b.y, b.score, b.isAI)

/-! ## Program start -/

/-- The game `G` as `initWebGL` leaves it: zero-initialised static storage with
`state = ST_MENU`, `numPlayers = 1`, `music_started = 0`, `nImpacts = 0`. -/
def G_init : Game :=
  { bats0 := { x := 0, y := 0, score := 0, timer := 0, isAI := false }
    bats1 := { x := 0, y := 0, score := 0, timer := 0, isAI := false }
    ball := { x := 0, y := 0, dx := 0, dy := 0, speed := 0, prev_x := 0 }
    impacts := fun _ => { x := 0, y := 0, time := 0 }
    nImpacts := 0
    numPlayers := 1
    ai_offset := 0
    music_started := false
    state := State.ST_MENU }

/-- All globals at program start: `G_init`, no key held, no call to `rand` made. -/
def W_init : World :=
  { G := G_init
    key_a := false, key_z := false, key_up := false, key_down := false
    key_k := false, key_m := false, space_down := false
    last_up := false, last_down := false
    rand_calls := 0 }

/-- A sample C library: `sqrtf` is the rational square root of Mathlib (exact on
squares of rationals), `rand` a linear congruential generator. -/
def libc_sample : Libc :=
  { sqrtf := Rat.sqrt
    rand := fun n => (1103515245 * n + 12345) % 32768 }

/-! ## Specification-side definitions -/

/-- The paddle delta written after the spec's `humanDelta(heldUp, heldDown)`,
with the priority the code gives: down first, then up, else 0. -/
def humanDelta (heldUp heldDown : Bool) : ℚ :=
  if heldDown then 6 else if heldUp then -6 else 0

/-- The live impact events: entries `0 .. nImpacts-1` of the array, in order. -/
def live (g : Game) : List Impact :=
  (List.range g.nImpacts.toNat).map g.impacts

/-- What the spec's `tick()` of the impact tracker does to a list of events:
every age is incremented, events whose new age is 10 or more are removed, the
order of the others is kept. -/
def aged (l : List Impact) : List Impact :=
  l.filterMap fun im => if im.time + 1 < 10 then some { im with time := im.time + 1 } else none

/-- A call on the impact collection. -/
inductive ImpactOp where
  | add (x y : ℚ)
  | update

def apply_op (o : ImpactOp) (g : Game) : Game :=
  match o with
  | ImpactOp.add x y => impact_add x y g
  | ImpactOp.update => impacts_update g

/-- Apply a sequence of calls on the impact collection, first to last. -/
def run_ops : List ImpactOp → Game → Game
  | [], g => g
  | o :: os, g => run_ops os (apply_op o g)

/-! ## Predicates on states -/

/-- The paddles stand where `new_game` puts them: `x = 40` and `x = WIDTH - 40`. -/
def Court (g : Game) : Prop := g.bats0.x = 40 ∧ g.bats1.x = 760

/-- The ball is fully past the left edge and moves outward. -/
def OutL (g : Game) : Prop := g.ball.x + 7 < 0 ∧ g.ball.dx < 0

/-- The ball is fully past the right edge and moves outward. -/
def OutR (g : Game) : Prop := g.ball.x - 7 > 800 ∧ g.ball.dx > 0

/-- The ball as `reset_ball_toward loser` leaves it. -/
def served (loser : Int) : Ball :=
  { x := 400, y := 240, dx := if loser = 0 then -1 else 1, dy := 0, speed := 5, prev_x := 400 }

/-- A state of the grace window after the left paddle conceded: Play phase,
paddles in place, ball out on the left, left timer `t`, scores `s0`, `s1` below 10. -/
def GraceL (t s0 s1 : Int) (w : World) : Prop :=
  w.G.state = State.ST_PLAY ∧ Court w.G ∧ OutL w.G ∧ w.G.bats0.timer = t ∧
  w.G.bats0.score = s0 ∧ w.G.bats1.score = s1 ∧ s0 < 10 ∧ s1 < 10

/-- A state of the grace window after the right paddle conceded. -/
def GraceR (t s0 s1 : Int) (w : World) : Prop :=
  w.G.state = State.ST_PLAY ∧ Court w.G ∧ OutR w.G ∧ w.G.bats1.timer = t ∧
  w.G.bats0.score = s0 ∧ w.G.bats1.score = s1 ∧ s0 < 10 ∧ s1 < 10

/-- Invariant of every run that starts from a fresh round: in the Play phase both
scores are below 10, and in every phase both are at most 10. -/
def ScoreInv (w : World) : Prop :=
  (w.G.state = State.ST_PLAY → w.G.bats0.score < 10 ∧ w.G.bats1.score < 10) ∧
  w.G.bats0.score ≤ 10 ∧ w.G.bats1.score ≤ 10

/-! ## Paddle hits and serves -/

/-- The left paddle block fires: both of its conditions hold (lines 322, 324). -/
def left_hit (w : World) : Bool :=
  decide ((w.G.ball.x - R ≤ w.G.bats0.x + halfW ∧ w.G.ball.prev_x - R > w.G.bats0.x + halfW) ∧
    (w.G.ball.y - w.G.bats0.y > -halfH ∧ w.G.ball.y - w.G.bats0.y < halfH))

/-- The right paddle block fires: both of its conditions hold (lines 338, 340). -/
def right_hit (w : World) : Bool :=
  decide ((w.G.ball.x + R ≥ w.G.bats1.x - halfW ∧ w.G.ball.prev_x + R < w.G.bats1.x - halfW) ∧
    (w.G.ball.y - w.G.bats1.y > -halfH ∧ w.G.ball.y - w.G.bats1.y < halfH))

/-- Number of paddle hits in one sub-step: the left block is tested on the moved
ball, the right block on the state the left block leaves. -/
def substep_hits (c : Libc) (w : World) : Nat :=
  (if left_hit (move w) then 1 else 0) + (if right_hit (left_paddle c (move w)) then 1 else 0)

/-- Number of paddle hits in `n` sub-steps. -/
def integrate_hits (c : Libc) : Nat → World → Nat
  | 0, _ => 0
  | n + 1, w => substep_hits c w + integrate_hits c n (substep c w)

/-- The scoring block takes its reset branch: the ball is off the field and the
conceding paddle's timer is exactly 0 (lines 364-371). -/
def serves (g : Game) : Bool :=
  if out_left g then decide (g.bats0.timer = 0)
  else out_right g && decide (g.bats1.timer = 0)

/-- A Play state during a grace window: the left paddle conceded 19 ticks ago
(timer 1), the ball is off the field on the left at speed 6. -/
def W_serve : World :=
  { W_init with G := { G_init with
      state := State.ST_PLAY
      bats0 := { x := 40, y := 400, score := 0, timer := 1, isAI := false }
      bats1 := { x := 760, y := 240, score := 1, timer := -100, isAI := true }
      ball := { x := -121, y := 240, dx := -1, dy := 0, speed := 6, prev_x := -120 } } }

/-- The host events of a short game from program start: space is pressed, then
`z` (paddle 0 down) is pressed and held, then `n` frames run. -/
def rally (n : Nat) : List Step :=
  Step.key { down := true, key := " ", code := "Space" } ::
  Step.key { down := true, key := "z", code := "KeyZ" } ::
  List.replicate n Step.frame

instance (g : Game) : Decidable (Court g) := by unfold Court; infer_instance
instance (g : Game) : Decidable (OutL g) := by unfold OutL; infer_instance
instance (g : Game) : Decidable (OutR g) := by unfold OutR; infer_instance

/-! ## Sample states -/

/-- A Play state at score (0, 0) in which the ball has passed the left paddle:
the tick moves it from x = -5 to x = -10, past the left edge, with the left
timer going from 0 to -1. -/
def W_exit : World :=
  { W_init with G := { G_init with
      state := State.ST_PLAY
      bats0 := { x := 40, y := 400, score := 0, timer := 0, isAI := false }
      bats1 := { x := 760, y := 240, score := 0, timer := -30, isAI := true }
      ball := { x := -5, y := 240, dx := -1, dy := 0, speed := 5, prev_x := -4 } } }

/-- A Play state in which the ball, level with the left paddle, reaches the
paddle's front plane in the second sub-step of the tick. -/
def W_hit : World :=
  { W_init with G := { G_init with
      state := State.ST_PLAY
      bats0 := { x := 40, y := 240, score := 0, timer := -50, isAI := false }
      bats1 := { x := 760, y := 240, score := 0, timer := -50, isAI := true }
      ball := { x := 58, y := 240, dx := -1, dy := 0, speed := 5, prev_x := 59 } } }

/-- A Play state in which the ball, 32 units below the centre of the left
paddle, reaches the paddle's front plane in the first sub-step of the tick. -/
def W_graze : World :=
  { W_init with G := { G_init with
      state := State.ST_PLAY
      bats0 := { x := 40, y := 240, score := 0, timer := -50, isAI := false }
      bats1 := { x := 760, y := 240, score := 0, timer := -50, isAI := true }
      ball := { x := 57, y := 272, dx := -1, dy := 0, speed := 5, prev_x := 58 } } }

/-- The state right after program start, space pressed and one frame: a fresh round. -/
def W_fresh : World :=
  run libc_sample [Step.key { down := true, key := " ", code := "Space" }, Step.frame] W_init

/-- A Play state at score (0, 9) in which the ball has passed the left paddle. -/
def W_match_point : World :=
  { W_exit with G := { W_exit.G with bats1 := { W_exit.G.bats1 with score := 9 } } }

/-- A short sequence of calls on the impact collection. -/
def ops_sample : List ImpactOp :=
  [ImpactOp.add 1 2, ImpactOp.update, ImpactOp.add 3 4, ImpactOp.update]

/-! ## Frame lemmas: what each phase leaves untouched -/

@[simp] theorem impact_add_ball (x y : ℚ) (g : Game) : (impact_add x y g).ball = g.ball := by
  unfold impact_add; split <;> rfl

@[simp] theorem impact_add_bats0 (x y : ℚ) (g : Game) : (impact_add x y g).bats0 = g.bats0 := by
  unfold impact_add; split <;> rfl

@[simp] theorem impact_add_bats1 (x y : ℚ) (g : Game) : (impact_add x y g).bats1 = g.bats1 := by
  unfold impact_add; split <;> rfl

@[simp] theorem impact_add_state (x y : ℚ) (g : Game) : (impact_add x y g).state = g.state := by
  unfold impact_add; split <;> rfl

@[simp] theorem impact_add_numPlayers (x y : ℚ) (g : Game) :
    (impact_add x y g).numPlayers = g.numPlayers := by
  unfold impact_add; split <;> rfl

@[simp] theorem impacts_update_ball (g : Game) : (impacts_update g).ball = g.ball := rfl
@[simp] theorem impacts_update_bats0 (g : Game) : (impacts_update g).bats0 = g.bats0 := rfl
@[simp] theorem impacts_update_bats1 (g : Game) : (impacts_update g).bats1 = g.bats1 := rfl
@[simp] theorem impacts_update_state (g : Game) : (impacts_update g).state = g.state := rfl
@[simp] theorem impacts_update_numPlayers (g : Game) :
    (impacts_update g).numPlayers = g.numPlayers := rfl

theorem left_paddle_place0 (c : Libc) (w : World) :
    (left_paddle c w).G.bats0.place = w.G.bats0.place := by
  simp only [left_paddle]
  split_ifs <;> simp [Bat.place]

theorem left_paddle_bats1 (c : Libc) (w : World) :
    (left_paddle c w).G.bats1 = w.G.bats1 := by
  simp only [left_paddle]
  split_ifs <;> simp

theorem right_paddle_place1 (c : Libc) (w : World) :
    (right_paddle c w).G.bats1.place = w.G.bats1.place := by
  simp only [right_paddle]
  split_ifs <;> simp [Bat.place]

theorem right_paddle_bats0 (c : Libc) (w : World) :
    (right_paddle c w).G.bats0 = w.G.bats0 := by
  simp only [right_paddle]
  split_ifs <;> simp

theorem left_paddle_state (c : Libc) (w : World) :
    (left_paddle c w).G.state = w.G.state := by
  simp only [left_paddle]
  split_ifs <;> simp

theorem right_paddle_state (c : Libc) (w : World) :
    (right_paddle c w).G.state = w.G.state := by
  simp only [right_paddle]
  split_ifs <;> simp

theorem wall_top_bats0 (g : Game) : (wall_top g).bats0 = g.bats0 := by
  unfold wall_top; split <;> simp

theorem wall_top_bats1 (g : Game) : (wall_top g).bats1 = g.bats1 := by
  unfold wall_top; split <;> simp

theorem wall_top_state (g : Game) : (wall_top g).state = g.state := by
  unfold wall_top; split <;> simp

theorem wall_bottom_bats0 (g : Game) : (wall_bottom g).bats0 = g.bats0 := by
  unfold wall_bottom; split <;> simp

theorem wall_bottom_bats1 (g : Game) : (wall_bottom g).bats1 = g.bats1 := by
  unfold wall_bottom; split <;> simp

theorem wall_bottom_state (g : Game) : (wall_bottom g).state = g.state := by
  unfold wall_bottom; split <;> simp

theorem substep_place0 (c : Libc) (w : World) :
    (substep c w).G.bats0.place = w.G.bats0.place := by
  simp only [substep, walls, wall_bottom_bats0, wall_top_bats0, right_paddle_bats0,
    left_paddle_place0]
  rfl

theorem substep_place1 (c : Libc) (w : World) :
    (substep c w).G.bats1.place = w.G.bats1.place := by
  simp only [substep, walls, wall_bottom_bats1, wall_top_bats1, right_paddle_place1,
    left_paddle_bats1]
  rfl

theorem substep_state (c : Libc) (w : World) : (substep c w).G.state = w.G.state := by
  simp only [substep, walls, wall_bottom_state, wall_top_state, right_paddle_state,
    left_paddle_state]
  rfl

theorem integrate_place0 (c : Libc) (n : Nat) (w : World) :
    (integrate c n w).G.bats0.place = w.G.bats0.place := by
  induction n generalizing w with
  | zero => rfl
  | succ n ih => rw [integrate, ih, substep_place0]

theorem integrate_place1 (c : Libc) (n : Nat) (w : World) :
    (integrate c n w).G.bats1.place = w.G.bats1.place := by
  induction n generalizing w with
  | zero => rfl
  | succ n ih => rw [integrate, ih, substep_place1]

theorem integrate_state (c : Libc) (n : Nat) (w : World) :
    (integrate c n w).G.state = w.G.state := by
  induction n generalizing w with
  | zero => rfl
  | succ n ih => rw [integrate, ih, substep_state]

theorem pre_score_place0 (c : Libc) (w : World) :
    (pre_score c w).G.bats0.place = (paddles w).G.bats0.place := by
  simp only [pre_score, impacts_update_bats0, integrate_place0]

theorem pre_score_place1 (c : Libc) (w : World) :
    (pre_score c w).G.bats1.place = (paddles w).G.bats1.place := by
  simp only [pre_score, impacts_update_bats1, integrate_place1]

theorem pre_score_state (c : Libc) (w : World) :
    (pre_score c w).G.state = w.G.state := by
  simp only [pre_score, impacts_update_state, integrate_state]
  rfl

theorem scoring_y0 (g : Game) : (scoring g).bats0.y = g.bats0.y := by
  simp only [scoring, set_bats, bats, reset_ball_toward]
  split_ifs <;> simp

theorem scoring_y1 (g : Game) : (scoring g).bats1.y = g.bats1.y := by
  simp only [scoring, set_bats, bats, reset_ball_toward]
  split_ifs <;> simp

theorem win_bats0 (g : Game) : (win g).bats0 = g.bats0 := by
  unfold win; split <;> rfl

theorem win_bats1 (g : Game) : (win g).bats1 = g.bats1 := by
  unfold win; split <;> rfl

theorem win_ball (g : Game) : (win g).ball = g.ball := by
  unfold win; split <;> rfl

theorem update_game_y0 (c : Libc) (w : World) :
    (update_game c w).G.bats0.y = (paddles w).G.bats0.y := by
  have h := pre_score_place0 c w
  simp only [Bat.place, Prod.mk.injEq] at h
  simp only [update_game, win_bats0, scoring_y0, h.2.1]

theorem update_game_y1 (c : Libc) (w : World) :
    (update_game c w).G.bats1.y = (paddles w).G.bats1.y := by
  have h := pre_score_place1 c w
  simp only [Bat.place, Prod.mk.injEq] at h
  simp only [update_game, win_bats1, scoring_y1, h.2.1]

theorem paddles_y0_range (w : World) :
    80 ≤ (paddles w).G.bats0.y ∧ (paddles w).G.bats0.y ≤ 400 := by
  simp only [paddles]
  constructor <;> split_ifs <;> linarith

theorem paddles_y1_range (w : World) :
    80 ≤ (paddles w).G.bats1.y ∧ (paddles w).G.bats1.y ≤ 400 := by
  simp only [paddles]
  constructor <;> split_ifs <;> linarith

/-! ## Paddle range -/

/-- C1: after every Play tick (`update_game`), for every key state, every
paddle delta and every prior paddle position, both paddles have `y` in the
closed interval [80, 400]. -/
theorem update_game_paddles_in_range (c : Libc) (w : World) :
    (80 ≤ (update_game c w).G.bats0.y ∧ (update_game c w).G.bats0.y ≤ 400) ∧
    (80 ≤ (update_game c w).G.bats1.y ∧ (update_game c w).G.bats1.y ≤ 400) := by
  rw [update_game_y0, update_game_y1]
  exact ⟨paddles_y0_range w, paddles_y1_range w⟩

/-! ## Round start -/

/-- C6 (as claimed, refuted): from program start, pressing the space bar and
running one frame starts a round whose ball has `dx = 1`, not `dx = -1`; the
same holds for `new_game` applied to the initial game. -/
theorem round_start_dx_is_plus_one :
    (new_game G_init).ball.dx = 1 ∧ (new_game G_init).ball.dx ≠ -1 ∧
    (run libc_sample [Step.key { down := true, key := " ", code := "Space" }, Step.frame]
      W_init).G.ball.dx = 1 := by
  refine ⟨?_, ?_, ?_⟩
  · simp [new_game, reset_ball_toward]
  · simp [new_game, reset_ball_toward]; norm_num
  · simp [run, step, on_key, tick, W_init, G_init, new_game, reset_ball_toward]

/-- C6 (amended): for every prior game state and either mode, `new_game` puts
the ball at (400, 240) with `dx = +1` (toward paddle 1, the right paddle),
`dy = 0`, `speed = 5`, and sets both scores to 0. -/
theorem new_game_round_start (g : Game) :
    (new_game g).ball.x = 400 ∧ (new_game g).ball.y = 240 ∧
    (new_game g).ball.dx = 1 ∧ (new_game g).ball.dy = 0 ∧
    (new_game g).ball.speed = 5 ∧
    (new_game g).bats0.score = 0 ∧ (new_game g).bats1.score = 0 := by
  simp [new_game, reset_ball_toward, WIDTH, HEIGHT]
  norm_num

/-! ## Human paddle control -/

/-- C7 (as claimed, refuted): with `a` (up) and `z` (down) both held,
`p1_controls` returns +6, and with `k` (up) and `m` (down) both held,
`p2_controls` returns +6: down wins, the delta is not -6. -/
theorem controls_down_wins_when_both_held :
    p1_controls { W_init with key_a := true, key_z := true } = 6 ∧
    p1_controls { W_init with key_a := true, key_z := true } ≠ -6 ∧
    p2_controls { W_init with key_k := true, key_m := true } = 6 ∧
    p2_controls { W_init with key_k := true, key_m := true } ≠ -6 := by
  simp [p1_controls, p2_controls, PLAYER_SPEED]
  norm_num

/-- C7 (amended): for every held-key state, `p1_controls` (up is `a` or
ArrowUp, down is `z` or ArrowDown) and `p2_controls` (up is `k`, down is `m`)
return +6 if a down control is held, else -6 if an up control is held, else
0; when both are held, down takes priority. -/
theorem controls_eq_humanDelta (w : World) :
    p1_controls w = humanDelta (w.key_a || w.key_up) (w.key_z || w.key_down) ∧
    p2_controls w = humanDelta w.key_k w.key_m := by
  simp only [p1_controls, p2_controls, humanDelta, PLAYER_SPEED]
  cases w.key_a <;> cases w.key_up <;> cases w.key_z <;> cases w.key_down <;>
    cases w.key_k <;> cases w.key_m <;> simp

/-! ## Phase transitions -/

theorem update_game_state (c : Libc) (w : World) :
    (update_game c w).G.state =
      if (update_game c w).G.bats0.score ≥ 10 ∨ (update_game c w).G.bats1.score ≥ 10
      then State.ST_OVER else (scoring (pre_score c w).G).state := by
  simp only [update_game, win]
  split_ifs <;> simp_all

theorem scoring_state (g : Game) : (scoring g).state = g.state := by
  simp only [scoring, set_bats, bats, reset_ball_toward]
  split_ifs <;> simp

/-- C8: the phase after `tick` is determined by the phase before it: from Menu
it is Play if the confirm flag `space_down` is set and Menu otherwise; from
Play it is GameOver if a score is at least 10 after the update and Play
otherwise; from GameOver it is Menu if the confirm flag is set and GameOver
otherwise. The GameOver to Menu transition sets the mode to 1 player, and a
confirm-driven transition clears the confirm flag. -/
theorem tick_phase (c : Libc) (w : World) :
    (tick c w).G.state =
      (match w.G.state with
       | State.ST_MENU => if w.space_down then State.ST_PLAY else State.ST_MENU
       | State.ST_PLAY =>
         if (tick c w).G.bats0.score ≥ 10 ∨ (tick c w).G.bats1.score ≥ 10
         then State.ST_OVER else State.ST_PLAY
       | State.ST_OVER => if w.space_down then State.ST_MENU else State.ST_OVER) ∧
    (w.G.state = State.ST_OVER → w.space_down = true → (tick c w).G.numPlayers = 1) ∧
    (w.G.state ≠ State.ST_PLAY → w.space_down = true → (tick c w).space_down = false) := by
  refine ⟨?_, ?_, ?_⟩
  · cases h : w.G.state
    · simp only [tick, h]
      split_ifs <;> simp_all [new_game, reset_ball_toward]
    · simp only [tick, h]
      rw [update_game_state, scoring_state, pre_score_state, h]
    · simp only [tick, h]
      split_ifs <;> simp_all
  · intro h hs
    simp [tick, h, hs]
  · intro h hs
    cases h2 : w.G.state
    · simp [tick, h2, hs]
    · exact absurd h2 h
    · simp [tick, h2, hs]

/-! ## Impact collection -/

theorem map_update_range (a : Nat → Impact) (w : Nat) (im : Impact) :
    (List.range w).map (Function.update a w im) = (List.range w).map a := by
  apply List.map_congr_left
  intro j hj
  have : j ≠ w := Nat.ne_of_lt (List.mem_range.mp hj)
  simp [Function.update, this]

theorem map_update_range_succ (a : Nat → Impact) (w : Nat) (im : Impact) :
    (List.range (w + 1)).map (Function.update a w im) = (List.range w).map a ++ [im] := by
  rw [List.range_succ, List.map_append, map_update_range]
  simp

theorem map_update_range_above (a : Nat → Impact) (w i k : Nat) (im : Impact) (h : w < i) :
    (List.range' i k).map (Function.update a w im) = (List.range' i k).map a := by
  apply List.map_congr_left
  intro j hj
  have : j ≠ w := by
    have := (List.mem_range'_1.mp hj).1
    omega
  simp [Function.update, this]

/-- Invariant of the compaction loop: the first `w` entries are kept, followed by
the aged survivors of the `k` entries read from index `i` on. -/
theorem impacts_loop_spec (k : Nat) : ∀ (i w : Nat) (a : Nat → Impact), w ≤ i →
    (List.range (impacts_loop k i w a).2).map (impacts_loop k i w a).1 =
      (List.range w).map a ++ aged ((List.range' i k).map a) := by
  induction k with
  | zero => intro i w a _; simp [impacts_loop, aged]
  | succ k ih =>
    intro i w a hwi
    by_cases hlt : (a i).time + 1 < 10
    · have e : impacts_loop (k + 1) i w a =
          impacts_loop k (i + 1) (w + 1)
            (Function.update a w { a i with time := (a i).time + 1 }) := by
        simp [impacts_loop, hlt]
      rw [e, ih (i + 1) (w + 1) _ (by omega), map_update_range_succ,
        map_update_range_above a w (i + 1) k _ (by omega)]
      simp [List.range'_succ, aged, List.filterMap_cons, hlt]
    · have e : impacts_loop (k + 1) i w a = impacts_loop k (i + 1) w a := by
        simp [impacts_loop, hlt]
      rw [e, ih (i + 1) w a (by omega)]
      simp [List.range'_succ, aged, List.filterMap_cons, hlt]

theorem impacts_loop_count (k : Nat) : ∀ (i w : Nat) (a : Nat → Impact),
    (impacts_loop k i w a).2 ≤ w + k := by
  induction k with
  | zero => intro i w a; simp [impacts_loop]
  | succ k ih =>
    intro i w a
    by_cases hlt : (a i).time + 1 < 10
    · have e : impacts_loop (k + 1) i w a =
          impacts_loop k (i + 1) (w + 1)
            (Function.update a w { a i with time := (a i).time + 1 }) := by
        simp [impacts_loop, hlt]
      rw [e]
      have := ih (i + 1) (w + 1) (Function.update a w { a i with time := (a i).time + 1 })
      omega
    · have e : impacts_loop (k + 1) i w a = impacts_loop k (i + 1) w a := by
        simp [impacts_loop, hlt]
      rw [e]
      have := ih (i + 1) w a
      omega

theorem live_impacts_update (g : Game) : live (impacts_update g) = aged (live g) := by
  have h := impacts_loop_spec g.nImpacts.toNat 0 0 g.impacts (Nat.le_refl 0)
  simp only [live, impacts_update, Int.toNat_ofNat]
  rw [h, List.range_eq_range']
  simp [List.range_eq_range']

theorem impacts_update_count (g : Game) :
    0 ≤ (impacts_update g).nImpacts ∧ (impacts_update g).nImpacts ≤ max g.nImpacts 0 := by
  have h := impacts_loop_count g.nImpacts.toNat 0 0 g.impacts
  simp only [impacts_update]
  constructor
  · exact Int.ofNat_nonneg _
  · have h2 : ((impacts_loop g.nImpacts.toNat 0 0 g.impacts).2 : Int) ≤ (g.nImpacts.toNat : Int) := by
      exact_mod_cast (by omega : (impacts_loop g.nImpacts.toNat 0 0 g.impacts).2 ≤ g.nImpacts.toNat)
    rw [Int.toNat_eq_max] at h2
    exact h2

theorem live_impact_add (x y : ℚ) (g : Game) (h0 : 0 ≤ g.nImpacts) (h : g.nImpacts < 64) :
    live (impact_add x y g) = live g ++ [{ x := x, y := y, time := 0 }] := by
  have e : (g.nImpacts + 1).toNat = g.nImpacts.toNat + 1 := by omega
  simp only [live, impact_add, MAX_IMPACTS, h, if_true, e]
  exact map_update_range_succ _ _ _

theorem impact_add_full (x y : ℚ) (g : Game) (h : 64 ≤ g.nImpacts) : impact_add x y g = g := by
  simp only [impact_add, MAX_IMPACTS]
  rw [if_neg (by omega)]

theorem impact_add_count (x y : ℚ) (g : Game) (h0 : 0 ≤ g.nImpacts) (h : g.nImpacts ≤ 64) :
    0 ≤ (impact_add x y g).nImpacts ∧ (impact_add x y g).nImpacts ≤ 64 := by
  simp only [impact_add, MAX_IMPACTS]
  split_ifs
  · exact ⟨by show 0 ≤ g.nImpacts + 1; omega, by show g.nImpacts + 1 ≤ 64; omega⟩
  · exact ⟨h0, h⟩

theorem run_ops_count (ops : List ImpactOp) : ∀ (g : Game), 0 ≤ g.nImpacts → g.nImpacts ≤ 64 →
    0 ≤ (run_ops ops g).nImpacts ∧ (run_ops ops g).nImpacts ≤ 64 := by
  induction ops with
  | nil => intro g h0 h; exact ⟨h0, h⟩
  | cons o os ih =>
    intro g h0 h
    cases o with
    | add x y =>
      have := impact_add_count x y g h0 h
      exact ih _ this.1 this.2
    | update =>
      have h1 := impacts_update_count g
      rw [max_eq_left h0] at h1
      exact ih _ h1.1 (le_trans h1.2 h)

/-- C9: for every sequence of `impact_add` and `impacts_update` calls that
starts from an empty collection, the live count stays between 0 and 64;
on the state reached, `impact_add` appends an age-0 event at (x, y) when fewer
than 64 events are live and changes nothing when 64 are live; and
`impacts_update` leaves exactly the events whose incremented age is below 10,
with age incremented, position unchanged and relative order preserved. -/
theorem impact_collection_bounded_and_aged (g0 : Game) (h : g0.nImpacts = 0)
    (ops : List ImpactOp) (x y : ℚ) :
    (0 ≤ (run_ops ops g0).nImpacts ∧ (run_ops ops g0).nImpacts ≤ 64) ∧
    (live (run_ops ops g0)).length ≤ 64 ∧
    ((run_ops ops g0).nImpacts < 64 →
      live (impact_add x y (run_ops ops g0)) =
        live (run_ops ops g0) ++ [{ x := x, y := y, time := 0 }]) ∧
    ((run_ops ops g0).nImpacts = 64 → impact_add x y (run_ops ops g0) = run_ops ops g0) ∧
    live (impacts_update (run_ops ops g0)) =
      (live (run_ops ops g0)).filterMap
        (fun im => if im.time + 1 < 10 then some { im with time := im.time + 1 } else none) := by
  have hc := run_ops_count ops g0 (by omega) (by omega)
  refine ⟨hc, ?_, ?_, ?_, ?_⟩
  · simp only [live, List.length_map, List.length_range]
    omega
  · intro hlt
    exact live_impact_add x y _ hc.1 hlt
  · intro heq
    exact impact_add_full x y _ (by omega)
  · exact live_impacts_update _

/-! ## The ball off the field -/

theorem paddles_ball (w : World) : (paddles w).G.ball = w.G.ball := rfl
theorem paddles_state (w : World) : (paddles w).G.state = w.G.state := rfl
theorem paddles_x0 (w : World) : (paddles w).G.bats0.x = w.G.bats0.x := rfl
theorem paddles_x1 (w : World) : (paddles w).G.bats1.x = w.G.bats1.x := rfl
theorem paddles_score0 (w : World) : (paddles w).G.bats0.score = w.G.bats0.score := rfl
theorem paddles_score1 (w : World) : (paddles w).G.bats1.score = w.G.bats1.score := rfl
theorem paddles_timer0 (w : World) : (paddles w).G.bats0.timer = w.G.bats0.timer - 1 := rfl
theorem paddles_timer1 (w : World) : (paddles w).G.bats1.timer = w.G.bats1.timer - 1 := rfl

theorem wall_top_horiz (g : Game) :
    (wall_top g).ball.x = g.ball.x ∧ (wall_top g).ball.dx = g.ball.dx ∧
    (wall_top g).ball.speed = g.ball.speed := by
  simp only [wall_top]
  split_ifs <;> simp

theorem wall_bottom_horiz (g : Game) :
    (wall_bottom g).ball.x = g.ball.x ∧ (wall_bottom g).ball.dx = g.ball.dx ∧
    (wall_bottom g).ball.speed = g.ball.speed := by
  simp only [wall_bottom]
  split_ifs <;> simp

theorem walls_horiz (w : World) :
    (walls w).G.ball.x = w.G.ball.x ∧ (walls w).G.ball.dx = w.G.ball.dx ∧
    (walls w).G.ball.speed = w.G.ball.speed := by
  have h1 := wall_top_horiz w.G
  have h2 := wall_bottom_horiz (wall_top w.G)
  simp only [walls]
  exact ⟨h2.1.trans h1.1, h2.2.1.trans h1.2.1, h2.2.2.trans h1.2.2⟩

theorem walls_bats0 (w : World) : (walls w).G.bats0 = w.G.bats0 := by
  simp only [walls, wall_bottom_bats0, wall_top_bats0]

theorem walls_bats1 (w : World) : (walls w).G.bats1 = w.G.bats1 := by
  simp only [walls, wall_bottom_bats1, wall_top_bats1]

theorem walls_state (w : World) : (walls w).G.state = w.G.state := by
  simp only [walls, wall_bottom_state, wall_top_state]

/-- With the ball out on the left, no paddle block fires in a sub-step. -/
theorem substep_outL (c : Libc) (w : World) (hc : Court w.G) (ho : OutL w.G) :
    substep c w = walls (move w) := by
  obtain ⟨h0, h1⟩ := hc
  obtain ⟨hx, hdx⟩ := ho
  have hl : left_paddle c (move w) = move w := by
    simp only [left_paddle, move, R, halfW, h0]
    rw [if_neg]
    intro h
    linarith [h.2]
  have hr : right_paddle c (move w) = move w := by
    simp only [right_paddle, move, R, halfW, h1]
    rw [if_neg]
    intro h
    linarith [h.1]
  simp only [substep, hl, hr]

/-- With the ball out on the right, no paddle block fires in a sub-step. -/
theorem substep_outR (c : Libc) (w : World) (hc : Court w.G) (ho : OutR w.G) :
    substep c w = walls (move w) := by
  obtain ⟨h0, h1⟩ := hc
  obtain ⟨hx, hdx⟩ := ho
  have hl : left_paddle c (move w) = move w := by
    simp only [left_paddle, move, R, halfW, h0]
    rw [if_neg]
    intro h
    linarith [h.1]
  have hr : right_paddle c (move w) = move w := by
    simp only [right_paddle, move, R, halfW, h1]
    rw [if_neg]
    intro h
    linarith [h.2]
  simp only [substep, hl, hr]

theorem walls_move_facts (w : World) :
    (walls (move w)).G.ball.x = w.G.ball.x + w.G.ball.dx ∧
    (walls (move w)).G.ball.dx = w.G.ball.dx ∧
    (walls (move w)).G.ball.speed = w.G.ball.speed ∧
    (walls (move w)).G.bats0 = w.G.bats0 ∧
    (walls (move w)).G.bats1 = w.G.bats1 ∧
    (walls (move w)).G.state = w.G.state := by
  have h := walls_horiz (move w)
  refine ⟨h.1, h.2.1, h.2.2, ?_, ?_, ?_⟩
  · rw [walls_bats0]; rfl
  · rw [walls_bats1]; rfl
  · rw [walls_state]; rfl

theorem integrate_outL (c : Libc) (n : Nat) : ∀ (w : World), Court w.G → OutL w.G →
    OutL (integrate c n w).G ∧
    (integrate c n w).G.ball.speed = w.G.ball.speed ∧
    (integrate c n w).G.bats0 = w.G.bats0 ∧
    (integrate c n w).G.bats1 = w.G.bats1 := by
  induction n with
  | zero => intro w _ ho; exact ⟨ho, rfl, rfl, rfl⟩
  | succ n ih =>
    intro w hc ho
    have hf := walls_move_facts w
    have hs := substep_outL c w hc ho
    have hc2 : Court (substep c w).G := by
      rw [hs]; unfold Court; rw [hf.2.2.2.1, hf.2.2.2.2.1]; exact hc
    have ho2 : OutL (substep c w).G := by
      rw [hs]; unfold OutL; rw [hf.1, hf.2.1]
      exact ⟨by linarith [ho.1, ho.2], ho.2⟩
    have h := ih (substep c w) hc2 ho2
    rw [integrate]
    refine ⟨h.1, ?_, ?_, ?_⟩
    · rw [h.2.1, hs, hf.2.2.1]
    · rw [h.2.2.1, hs, hf.2.2.2.1]
    · rw [h.2.2.2, hs, hf.2.2.2.2.1]

theorem integrate_outR (c : Libc) (n : Nat) : ∀ (w : World), Court w.G → OutR w.G →
    OutR (integrate c n w).G ∧
    (integrate c n w).G.ball.speed = w.G.ball.speed ∧
    (integrate c n w).G.bats0 = w.G.bats0 ∧
    (integrate c n w).G.bats1 = w.G.bats1 := by
  induction n with
  | zero => intro w _ ho; exact ⟨ho, rfl, rfl, rfl⟩
  | succ n ih =>
    intro w hc ho
    have hf := walls_move_facts w
    have hs := substep_outR c w hc ho
    have hc2 : Court (substep c w).G := by
      rw [hs]; unfold Court; rw [hf.2.2.2.1, hf.2.2.2.2.1]; exact hc
    have ho2 : OutR (substep c w).G := by
      rw [hs]; unfold OutR; rw [hf.1, hf.2.1]
      exact ⟨by linarith [ho.1, ho.2], ho.2⟩
    have h := ih (substep c w) hc2 ho2
    rw [integrate]
    refine ⟨h.1, ?_, ?_, ?_⟩
    · rw [h.2.1, hs, hf.2.2.1]
    · rw [h.2.2.1, hs, hf.2.2.2.1]
    · rw [h.2.2.2, hs, hf.2.2.2.2.1]

/-- The state at the scoring check of a tick that starts with the ball out on the left. -/
theorem pre_score_outL (c : Libc) (w : World) (hc : Court w.G) (ho : OutL w.G) :
    OutL (pre_score c w).G ∧ Court (pre_score c w).G ∧
    (pre_score c w).G.ball.speed = w.G.ball.speed ∧
    (pre_score c w).G.bats0.timer = w.G.bats0.timer - 1 ∧
    (pre_score c w).G.bats1.timer = w.G.bats1.timer - 1 := by
  have h := integrate_outL c (paddles w).G.ball.speed.toNat (paddles w) hc ho
  simp only [pre_score]
  refine ⟨h.1, ?_, h.2.1, ?_, ?_⟩
  · unfold Court
    rw [impacts_update_bats0, impacts_update_bats1, h.2.2.1, h.2.2.2]
    exact hc
  · rw [impacts_update_bats0, h.2.2.1]; rfl
  · rw [impacts_update_bats1, h.2.2.2]; rfl

/-- The state at the scoring check of a tick that starts with the ball out on the right. -/
theorem pre_score_outR (c : Libc) (w : World) (hc : Court w.G) (ho : OutR w.G) :
    OutR (pre_score c w).G ∧ Court (pre_score c w).G ∧
    (pre_score c w).G.ball.speed = w.G.ball.speed ∧
    (pre_score c w).G.bats0.timer = w.G.bats0.timer - 1 ∧
    (pre_score c w).G.bats1.timer = w.G.bats1.timer - 1 := by
  have h := integrate_outR c (paddles w).G.ball.speed.toNat (paddles w) hc ho
  simp only [pre_score]
  refine ⟨h.1, ?_, h.2.1, ?_, ?_⟩
  · unfold Court
    rw [impacts_update_bats0, impacts_update_bats1, h.2.2.1, h.2.2.2]
    exact hc
  · rw [impacts_update_bats0, h.2.2.1]; rfl
  · rw [impacts_update_bats1, h.2.2.2]; rfl

theorem pre_score_score0 (c : Libc) (w : World) :
    (pre_score c w).G.bats0.score = w.G.bats0.score := by
  have h := pre_score_place0 c w
  simp only [Bat.place, Prod.mk.injEq] at h
  exact h.2.2.1

theorem pre_score_score1 (c : Libc) (w : World) :
    (pre_score c w).G.bats1.score = w.G.bats1.score := by
  have h := pre_score_place1 c w
  simp only [Bat.place, Prod.mk.injEq] at h
  exact h.2.2.1

theorem pre_score_court (c : Libc) (w : World) (hc : Court w.G) : Court (pre_score c w).G := by
  have h0 := pre_score_place0 c w
  have h1 := pre_score_place1 c w
  simp only [Bat.place, Prod.mk.injEq] at h0 h1
  exact ⟨h0.1.trans hc.1, h1.1.trans hc.2⟩

/-! ## The scoring block, case by case -/

theorem scoring_left_score (g : Game) (ho : g.ball.x + 7 < 0) (ht : g.bats0.timer < 0) :
    (scoring g).bats1.score = g.bats1.score + 1 ∧ (scoring g).bats0.score = g.bats0.score ∧
    (scoring g).bats0.timer = 20 ∧ (scoring g).ball = g.ball ∧
    (scoring g).bats1.timer = g.bats1.timer := by
  simp [scoring, out_left, ho, bats, set_bats, ht]

theorem scoring_left_wait (g : Game) (ho : g.ball.x + 7 < 0) (ht : 0 < g.bats0.timer) :
    scoring g = g := by
  have h1 : ¬ g.bats0.timer < 0 := by omega
  have h2 : ¬ g.bats0.timer = 0 := by omega
  simp [scoring, out_left, ho, bats, h1, h2]

theorem scoring_left_serve (g : Game) (ho : g.ball.x + 7 < 0) (ht : g.bats0.timer = 0) :
    scoring g = reset_ball_toward 0 g := by
  simp [scoring, out_left, ho, bats, ht]

theorem scoring_right_score (g : Game) (ho : g.ball.x - 7 > 800) (ht : g.bats1.timer < 0) :
    (scoring g).bats0.score = g.bats0.score + 1 ∧ (scoring g).bats1.score = g.bats1.score ∧
    (scoring g).bats1.timer = 20 ∧ (scoring g).ball = g.ball ∧
    (scoring g).bats0.timer = g.bats0.timer := by
  have hl : ¬ g.ball.x + 7 < 0 := by linarith
  simp [scoring, out_left, out_right, WIDTH, ho, hl, bats, set_bats, ht]

theorem scoring_right_wait (g : Game) (ho : g.ball.x - 7 > 800) (ht : 0 < g.bats1.timer) :
    scoring g = g := by
  have hl : ¬ g.ball.x + 7 < 0 := by linarith
  have h1 : ¬ g.bats1.timer < 0 := by omega
  have h2 : ¬ g.bats1.timer = 0 := by omega
  simp [scoring, out_left, out_right, WIDTH, ho, hl, bats, h1, h2]

theorem scoring_right_serve (g : Game) (ho : g.ball.x - 7 > 800) (ht : g.bats1.timer = 0) :
    scoring g = reset_ball_toward 1 g := by
  have hl : ¬ g.ball.x + 7 < 0 := by linarith
  simp [scoring, out_left, out_right, WIDTH, ho, hl, bats, ht]

theorem win_below (g : Game) (h0 : g.bats0.score < 10) (h1 : g.bats1.score < 10) : win g = g := by
  simp only [win]
  rw [if_neg]
  intro h
  omega

theorem tick_play (c : Libc) (w : World) (h : w.G.state = State.ST_PLAY) :
    tick c w = update_game c w := by
  simp only [tick, h]

theorem update_game_G (c : Libc) (w : World) :
    (update_game c w).G = win (scoring (pre_score c w).G) := rfl

theorem on_key_G (e : KeyEvent) (w : World) : (on_key e w).G = w.G := by
  simp only [on_key]
  split_ifs <;> rfl

theorem run_keys_G (c : Libc) (steps : List Step) : ∀ (w : World), frames steps = 0 →
    (run c steps w).G = w.G := by
  induction steps with
  | nil => intro w _; rfl
  | cons s ss ih =>
    intro w h
    cases s with
    | key e =>
      simp only [frames] at h
      simp only [run, step]
      rw [ih _ h, on_key_G]
    | frame => simp [frames] at h

/-! ## The grace window -/

theorem grace_tick_L (c : Libc) (w : World) (t s0 s1 : Int) (h : GraceL (t + 1) s0 s1 w)
    (ht : 1 ≤ t) : GraceL t s0 s1 (tick c w) := by
  obtain ⟨hp, hc, ho, htm, h0, h1, hl0, hl1⟩ := h
  have hpre := pre_score_outL c w hc ho
  have htimer : (pre_score c w).G.bats0.timer = t := by rw [hpre.2.2.2.1, htm]; omega
  have hsc := scoring_left_wait (pre_score c w).G hpre.1.1 (by omega)
  have hw := win_below (pre_score c w).G (by rw [pre_score_score0, h0]; exact hl0)
    (by rw [pre_score_score1, h1]; exact hl1)
  have hG : (tick c w).G = (pre_score c w).G := by
    rw [tick_play c w hp, update_game_G, hsc, hw]
  unfold GraceL
  rw [hG]
  exact ⟨by rw [pre_score_state, hp], hpre.2.1, hpre.1, htimer,
    by rw [pre_score_score0, h0], by rw [pre_score_score1, h1], hl0, hl1⟩

theorem grace_tick_R (c : Libc) (w : World) (t s0 s1 : Int) (h : GraceR (t + 1) s0 s1 w)
    (ht : 1 ≤ t) : GraceR t s0 s1 (tick c w) := by
  obtain ⟨hp, hc, ho, htm, h0, h1, hl0, hl1⟩ := h
  have hpre := pre_score_outR c w hc ho
  have htimer : (pre_score c w).G.bats1.timer = t := by rw [hpre.2.2.2.2, htm]; omega
  have hsc := scoring_right_wait (pre_score c w).G hpre.1.1 (by omega)
  have hw := win_below (pre_score c w).G (by rw [pre_score_score0, h0]; exact hl0)
    (by rw [pre_score_score1, h1]; exact hl1)
  have hG : (tick c w).G = (pre_score c w).G := by
    rw [tick_play c w hp, update_game_G, hsc, hw]
  unfold GraceR
  rw [hG]
  exact ⟨by rw [pre_score_state, hp], hpre.2.1, hpre.1, htimer,
    by rw [pre_score_score0, h0], by rw [pre_score_score1, h1], hl0, hl1⟩

theorem serve_tick_L (c : Libc) (w : World) (s0 s1 : Int) (h : GraceL 1 s0 s1 w) :
    (tick c w).G.ball = served 0 ∧ (tick c w).G.bats0.score = s0 ∧
    (tick c w).G.bats1.score = s1 := by
  obtain ⟨hp, hc, ho, htm, h0, h1, hl0, hl1⟩ := h
  have hpre := pre_score_outL c w hc ho
  have htimer : (pre_score c w).G.bats0.timer = 0 := by rw [hpre.2.2.2.1, htm]; omega
  have hsc := scoring_left_serve (pre_score c w).G hpre.1.1 htimer
  have hw := win_below (reset_ball_toward 0 (pre_score c w).G)
    (by show (pre_score c w).G.bats0.score < 10; rw [pre_score_score0, h0]; exact hl0)
    (by show (pre_score c w).G.bats1.score < 10; rw [pre_score_score1, h1]; exact hl1)
  have hG : (tick c w).G = reset_ball_toward 0 (pre_score c w).G := by
    rw [tick_play c w hp, update_game_G, hsc, hw]
  rw [hG]
  refine ⟨?_, ?_, ?_⟩
  · simp [reset_ball_toward, served, WIDTH, HEIGHT]; norm_num
  · show (pre_score c w).G.bats0.score = s0
    rw [pre_score_score0, h0]
  · show (pre_score c w).G.bats1.score = s1
    rw [pre_score_score1, h1]

theorem serve_tick_R (c : Libc) (w : World) (s0 s1 : Int) (h : GraceR 1 s0 s1 w) :
    (tick c w).G.ball = served 1 ∧ (tick c w).G.bats0.score = s0 ∧
    (tick c w).G.bats1.score = s1 := by
  obtain ⟨hp, hc, ho, htm, h0, h1, hl0, hl1⟩ := h
  have hpre := pre_score_outR c w hc ho
  have htimer : (pre_score c w).G.bats1.timer = 0 := by rw [hpre.2.2.2.2, htm]; omega
  have hsc := scoring_right_serve (pre_score c w).G hpre.1.1 htimer
  have hw := win_below (reset_ball_toward 1 (pre_score c w).G)
    (by show (pre_score c w).G.bats0.score < 10; rw [pre_score_score0, h0]; exact hl0)
    (by show (pre_score c w).G.bats1.score < 10; rw [pre_score_score1, h1]; exact hl1)
  have hG : (tick c w).G = reset_ball_toward 1 (pre_score c w).G := by
    rw [tick_play c w hp, update_game_G, hsc, hw]
  rw [hG]
  refine ⟨?_, ?_, ?_⟩
  · simp [reset_ball_toward, served, WIDTH, HEIGHT]; norm_num
  · show (pre_score c w).G.bats0.score = s0
    rw [pre_score_score0, h0]
  · show (pre_score c w).G.bats1.score = s1
    rw [pre_score_score1, h1]

theorem graceL_of_G (t s0 s1 : Int) (w v : World) (h : v.G = w.G) (hg : GraceL t s0 s1 w) :
    GraceL t s0 s1 v := by
  unfold GraceL at *
  rw [h]; exact hg

theorem graceR_of_G (t s0 s1 : Int) (w v : World) (h : v.G = w.G) (hg : GraceR t s0 s1 w) :
    GraceR t s0 s1 v := by
  unfold GraceR at *
  rw [h]; exact hg

/-- While fewer frames have run than the left timer holds, the grace window goes on. -/
theorem grace_run_L (c : Libc) (s0 s1 : Int) (steps : List Step) : ∀ (t : Int) (w : World),
    GraceL t s0 s1 w → (frames steps : Int) < t →
    GraceL (t - frames steps) s0 s1 (run c steps w) := by
  induction steps with
  | nil => intro t w h _; simpa [run, frames] using h
  | cons s ss ih =>
    intro t w h hf
    cases s with
    | key e =>
      simp only [frames] at hf ⊢
      simp only [run, step]
      exact ih t _ (graceL_of_G t s0 s1 w _ (on_key_G e w) h) hf
    | frame =>
      simp only [frames, Nat.cast_add, Nat.cast_one] at hf ⊢
      simp only [run, step]
      have h1 : GraceL (t - 1) s0 s1 (tick c w) :=
        grace_tick_L c w (t - 1) s0 s1 (by rw [sub_add_cancel]; exact h) (by omega)
      have := ih (t - 1) _ h1 (by omega)
      have e : t - 1 - (frames ss : Int) = t - ((frames ss : Int) + 1) := by ring
      rw [e] at this
      exact this

theorem grace_run_R (c : Libc) (s0 s1 : Int) (steps : List Step) : ∀ (t : Int) (w : World),
    GraceR t s0 s1 w → (frames steps : Int) < t →
    GraceR (t - frames steps) s0 s1 (run c steps w) := by
  induction steps with
  | nil => intro t w h _; simpa [run, frames] using h
  | cons s ss ih =>
    intro t w h hf
    cases s with
    | key e =>
      simp only [frames] at hf ⊢
      simp only [run, step]
      exact ih t _ (graceR_of_G t s0 s1 w _ (on_key_G e w) h) hf
    | frame =>
      simp only [frames, Nat.cast_add, Nat.cast_one] at hf ⊢
      simp only [run, step]
      have h1 : GraceR (t - 1) s0 s1 (tick c w) :=
        grace_tick_R c w (t - 1) s0 s1 (by rw [sub_add_cancel]; exact h) (by omega)
      have := ih (t - 1) _ h1 (by omega)
      have e : t - 1 - (frames ss : Int) = t - ((frames ss : Int) + 1) := by ring
      rw [e] at this
      exact this

/-- The frame on which the left timer reaches 0 serves the ball toward the left. -/
theorem serve_run_L (c : Libc) (s0 s1 : Int) (steps : List Step) : ∀ (t : Int) (w : World),
    GraceL t s0 s1 w → 1 ≤ t → (frames steps : Int) = t →
    (run c steps w).G.ball = served 0 ∧ (run c steps w).G.bats0.score = s0 ∧
    (run c steps w).G.bats1.score = s1 := by
  induction steps with
  | nil =>
    intro t w _ ht hf
    simp only [frames, Nat.cast_zero] at hf
    omega
  | cons s ss ih =>
    intro t w h ht hf
    cases s with
    | key e =>
      simp only [frames] at hf
      simp only [run, step]
      exact ih t _ (graceL_of_G t s0 s1 w _ (on_key_G e w) h) ht hf
    | frame =>
      simp only [frames, Nat.cast_add, Nat.cast_one] at hf
      simp only [run, step]
      by_cases hz : frames ss = 0
      · have ht1 : t = 1 := by rw [hz] at hf; omega
        rw [run_keys_G c ss _ hz]
        exact serve_tick_L c w s0 s1 (by rw [← ht1]; exact h)
      · have h1 : GraceL (t - 1) s0 s1 (tick c w) :=
          grace_tick_L c w (t - 1) s0 s1 (by rw [sub_add_cancel]; exact h) (by omega)
        exact ih (t - 1) _ h1 (by omega) (by omega)

/-- The frame on which the right timer reaches 0 serves the ball toward the right. -/
theorem serve_run_R (c : Libc) (s0 s1 : Int) (steps : List Step) : ∀ (t : Int) (w : World),
    GraceR t s0 s1 w → 1 ≤ t → (frames steps : Int) = t →
    (run c steps w).G.ball = served 1 ∧ (run c steps w).G.bats0.score = s0 ∧
    (run c steps w).G.bats1.score = s1 := by
  induction steps with
  | nil =>
    intro t w _ ht hf
    simp only [frames, Nat.cast_zero] at hf
    omega
  | cons s ss ih =>
    intro t w h ht hf
    cases s with
    | key e =>
      simp only [frames] at hf
      simp only [run, step]
      exact ih t _ (graceR_of_G t s0 s1 w _ (on_key_G e w) h) ht hf
    | frame =>
      simp only [frames, Nat.cast_add, Nat.cast_one] at hf
      simp only [run, step]
      by_cases hz : frames ss = 0
      · have ht1 : t = 1 := by rw [hz] at hf; omega
        rw [run_keys_G c ss _ hz]
        exact serve_tick_R c w s0 s1 (by rw [← ht1]; exact h)
      · have h1 : GraceR (t - 1) s0 s1 (tick c w) :=
          grace_tick_R c w (t - 1) s0 s1 (by rw [sub_add_cancel]; exact h) (by omega)
        exact ih (t - 1) _ h1 (by omega) (by omega)

/-- Scores over the grace window, left side: unchanged for up to `t` frames. -/
theorem grace_scores_L (c : Libc) (s0 s1 : Int) (steps : List Step) (t : Int) (w : World)
    (h : GraceL t s0 s1 w) (ht : 1 ≤ t) (hf : (frames steps : Int) ≤ t) :
    (run c steps w).G.bats0.score = s0 ∧ (run c steps w).G.bats1.score = s1 := by
  rcases lt_or_eq_of_le hf with hlt | heq
  · have := grace_run_L c s0 s1 steps t w h hlt
    exact ⟨this.2.2.2.2.1, this.2.2.2.2.2.1⟩
  · exact (serve_run_L c s0 s1 steps t w h ht heq).2

/-- Scores over the grace window, right side: unchanged for up to `t` frames. -/
theorem grace_scores_R (c : Libc) (s0 s1 : Int) (steps : List Step) (t : Int) (w : World)
    (h : GraceR t s0 s1 w) (ht : 1 ≤ t) (hf : (frames steps : Int) ≤ t) :
    (run c steps w).G.bats0.score = s0 ∧ (run c steps w).G.bats1.score = s1 := by
  rcases lt_or_eq_of_le hf with hlt | heq
  · have := grace_run_R c s0 s1 steps t w h hlt
    exact ⟨this.2.2.2.2.1, this.2.2.2.2.2.1⟩
  · exact (serve_run_R c s0 s1 steps t w h ht heq).2

/-! ## Delayed serve -/

/-- C3: from a Play state right after a score tick (paddles in place, both
scores below 10, the conceding paddle's timer at 20, the ball off the field on
that paddle's side and moving outward), after any sequence of host events with
at most 19 frames the ball is still off the field on that side (it has not been
reset), and after any sequence with exactly 20 frames the ball is at
(400, 240) with `dy = 0`, `speed = 5` and `dx = -1` when the left paddle
conceded, `dx = +1` when the right paddle conceded. -/
theorem delayed_serve (c : Libc) (w : World) (steps : List Step)
    (hplay : w.G.state = State.ST_PLAY) (hcourt : Court w.G)
    (hs0 : w.G.bats0.score < 10) (hs1 : w.G.bats1.score < 10) :
    (w.G.bats0.timer = 20 → OutL w.G →
      (frames steps ≤ 19 → (run c steps w).G.ball.x + 7 < 0) ∧
      (frames steps = 20 →
        (run c steps w).G.ball.x = 400 ∧ (run c steps w).G.ball.y = 240 ∧
        (run c steps w).G.ball.dx = -1 ∧ (run c steps w).G.ball.dy = 0 ∧
        (run c steps w).G.ball.speed = 5)) ∧
    (w.G.bats1.timer = 20 → OutR w.G →
      (frames steps ≤ 19 → (run c steps w).G.ball.x - 7 > 800) ∧
      (frames steps = 20 →
        (run c steps w).G.ball.x = 400 ∧ (run c steps w).G.ball.y = 240 ∧
        (run c steps w).G.ball.dx = 1 ∧ (run c steps w).G.ball.dy = 0 ∧
        (run c steps w).G.ball.speed = 5)) := by
  constructor
  · intro ht ho
    have hg : GraceL 20 w.G.bats0.score w.G.bats1.score w :=
      ⟨hplay, hcourt, ho, ht, rfl, rfl, hs0, hs1⟩
    constructor
    · intro hf
      exact (grace_run_L c _ _ steps 20 w hg (by omega)).2.2.1.1
    · intro hf
      have h := (serve_run_L c _ _ steps 20 w hg (by omega) (by omega)).1
      rw [h]
      simp [served]
  · intro ht ho
    have hg : GraceR 20 w.G.bats0.score w.G.bats1.score w :=
      ⟨hplay, hcourt, ho, ht, rfl, rfl, hs0, hs1⟩
    constructor
    · intro hf
      exact (grace_run_R c _ _ steps 20 w hg (by omega)).2.2.1.1
    · intro hf
      have h := (serve_run_R c _ _ steps 20 w hg (by omega) (by omega)).1
      rw [h]
      simp [served]

/-! ## Scoring once per exit -/

theorem scoring_court (g : Game) (h : Court g) : Court (scoring g) := by
  have h0 : (scoring g).bats0.x = g.bats0.x := by
    simp only [scoring, set_bats, bats, reset_ball_toward]
    split_ifs <;> simp
  have h1 : (scoring g).bats1.x = g.bats1.x := by
    simp only [scoring, set_bats, bats, reset_ball_toward]
    split_ifs <;> simp
  exact ⟨h0.trans h.1, h1.trans h.2⟩

theorem update_game_court (c : Libc) (w : World) (h : Court w.G) : Court (update_game c w).G := by
  have := scoring_court _ (pre_score_court c w h)
  unfold Court at this ⊢
  rw [update_game_G, win_bats0, win_bats1]
  exact this

theorem update_game_play_scores (c : Libc) (w : World)
    (h : (update_game c w).G.state = State.ST_PLAY) :
    (update_game c w).G.bats0.score < 10 ∧ (update_game c w).G.bats1.score < 10 := by
  rw [update_game_state] at h
  split_ifs at h with hs
  push_neg at hs
  exact hs

/-- C2: take a Play state with the paddles in place. If at the scoring check
of its tick the ball is fully past the left edge and moving outward and the
left paddle's timer is negative, the tick adds exactly 1 to the right paddle's
score, leaves the left paddle's score unchanged, sets the left paddle's timer
to 20 and leaves the ball as integration produced it (no reset); and if the
match goes on, both scores stay unchanged over every following sequence of
host events with at most 20 frames (the 19 frames with the ball off the field
and the frame that resets it). The same holds with left and right exchanged. -/
theorem score_once_per_exit (c : Libc) (w : World) (steps : List Step)
    (hplay : w.G.state = State.ST_PLAY) (hcourt : Court w.G) :
    (OutL (pre_score c w).G → (pre_score c w).G.bats0.timer < 0 →
      ((tick c w).G.bats1.score = w.G.bats1.score + 1 ∧
       (tick c w).G.bats0.score = w.G.bats0.score ∧
       (tick c w).G.bats0.timer = 20 ∧
       (tick c w).G.ball = (pre_score c w).G.ball) ∧
      ((tick c w).G.state = State.ST_PLAY → frames steps ≤ 20 →
        (run c steps (tick c w)).G.bats0.score = (tick c w).G.bats0.score ∧
        (run c steps (tick c w)).G.bats1.score = (tick c w).G.bats1.score)) ∧
    (OutR (pre_score c w).G → (pre_score c w).G.bats1.timer < 0 →
      ((tick c w).G.bats0.score = w.G.bats0.score + 1 ∧
       (tick c w).G.bats1.score = w.G.bats1.score ∧
       (tick c w).G.bats1.timer = 20 ∧
       (tick c w).G.ball = (pre_score c w).G.ball) ∧
      ((tick c w).G.state = State.ST_PLAY → frames steps ≤ 20 →
        (run c steps (tick c w)).G.bats0.score = (tick c w).G.bats0.score ∧
        (run c steps (tick c w)).G.bats1.score = (tick c w).G.bats1.score)) := by
  have hT : tick c w = update_game c w := tick_play c w hplay
  constructor
  · intro ho ht
    have hsc := scoring_left_score (pre_score c w).G ho.1 ht
    have hfirst : (tick c w).G.bats1.score = w.G.bats1.score + 1 ∧
        (tick c w).G.bats0.score = w.G.bats0.score ∧
        (tick c w).G.bats0.timer = 20 ∧
        (tick c w).G.ball = (pre_score c w).G.ball := by
      rw [hT, update_game_G, win_bats0, win_bats1, win_ball]
      exact ⟨by rw [hsc.1, pre_score_score1], by rw [hsc.2.1, pre_score_score0],
        hsc.2.2.1, hsc.2.2.2.1⟩
    refine ⟨hfirst, ?_⟩
    intro hst hf
    have hlt : (tick c w).G.bats0.score < 10 ∧ (tick c w).G.bats1.score < 10 := by
      rw [hT] at hst ⊢
      exact update_game_play_scores c w hst
    have hg : GraceL 20 (tick c w).G.bats0.score (tick c w).G.bats1.score (tick c w) := by
      refine ⟨hst, ?_, ?_, hfirst.2.2.1, rfl, rfl, hlt.1, hlt.2⟩
      · rw [hT]; exact update_game_court c w hcourt
      · unfold OutL; rw [hfirst.2.2.2]; exact ho
    exact grace_scores_L c _ _ steps 20 (tick c w) hg (by omega) (by omega)
  · intro ho ht
    have hsc := scoring_right_score (pre_score c w).G ho.1 ht
    have hfirst : (tick c w).G.bats0.score = w.G.bats0.score + 1 ∧
        (tick c w).G.bats1.score = w.G.bats1.score ∧
        (tick c w).G.bats1.timer = 20 ∧
        (tick c w).G.ball = (pre_score c w).G.ball := by
      rw [hT, update_game_G, win_bats0, win_bats1, win_ball]
      exact ⟨by rw [hsc.1, pre_score_score0], by rw [hsc.2.1, pre_score_score1],
        hsc.2.2.1, hsc.2.2.2.1⟩
    refine ⟨hfirst, ?_⟩
    intro hst hf
    have hlt : (tick c w).G.bats0.score < 10 ∧ (tick c w).G.bats1.score < 10 := by
      rw [hT] at hst ⊢
      exact update_game_play_scores c w hst
    have hg : GraceR 20 (tick c w).G.bats0.score (tick c w).G.bats1.score (tick c w) := by
      refine ⟨hst, ?_, ?_, hfirst.2.2.1, rfl, rfl, hlt.1, hlt.2⟩
      · rw [hT]; exact update_game_court c w hcourt
      · unfold OutR; rw [hfirst.2.2.2]; exact ho
    exact grace_scores_R c _ _ steps 20 (tick c w) hg (by omega) (by omega)

/-! ## Match end -/

/-- The scoring block changes at most one score, by exactly 1. -/
theorem scoring_scores (g : Game) :
    ((scoring g).bats0.score = g.bats0.score ∧ (scoring g).bats1.score = g.bats1.score) ∨
    ((scoring g).bats0.score = g.bats0.score + 1 ∧ (scoring g).bats1.score = g.bats1.score) ∨
    ((scoring g).bats0.score = g.bats0.score ∧ (scoring g).bats1.score = g.bats1.score + 1) := by
  simp only [scoring, set_bats, bats, reset_ball_toward]
  split_ifs <;> simp

theorem update_game_scores (c : Libc) (w : World) :
    ((update_game c w).G.bats0.score = w.G.bats0.score ∧
      (update_game c w).G.bats1.score = w.G.bats1.score) ∨
    ((update_game c w).G.bats0.score = w.G.bats0.score + 1 ∧
      (update_game c w).G.bats1.score = w.G.bats1.score) ∨
    ((update_game c w).G.bats0.score = w.G.bats0.score ∧
      (update_game c w).G.bats1.score = w.G.bats1.score + 1) := by
  have h := scoring_scores (pre_score c w).G
  rw [pre_score_score0, pre_score_score1] at h
  rw [update_game_G, win_bats0, win_bats1]
  exact h

theorem update_game_phase (c : Libc) (w : World) (h : w.G.state = State.ST_PLAY) :
    (update_game c w).G.state =
      if (update_game c w).G.bats0.score ≥ 10 ∨ (update_game c w).G.bats1.score ≥ 10
      then State.ST_OVER else State.ST_PLAY := by
  rw [update_game_state, scoring_state, pre_score_state, h]

theorem tick_menu_G (c : Libc) (w : World) (h : w.G.state = State.ST_MENU) :
    (w.space_down = true → (tick c w).G.state = State.ST_PLAY ∧
      (tick c w).G.bats0.score = 0 ∧ (tick c w).G.bats1.score = 0) ∧
    (w.space_down = false → (tick c w).G.state = State.ST_MENU ∧
      (tick c w).G.bats0.score = w.G.bats0.score ∧
      (tick c w).G.bats1.score = w.G.bats1.score) := by
  constructor
  · intro hs
    simp [tick, h, hs, new_game, reset_ball_toward]
  · intro hs
    simp only [tick, h, hs]
    split_ifs <;> simp_all

theorem tick_over_G (c : Libc) (w : World) (h : w.G.state = State.ST_OVER) :
    (tick c w).G.state ≠ State.ST_PLAY ∧
    (tick c w).G.bats0.score = w.G.bats0.score ∧
    (tick c w).G.bats1.score = w.G.bats1.score := by
  simp only [tick, h]
  split_ifs <;> simp [h]

theorem tick_scoreInv (c : Libc) (w : World) (h : ScoreInv w) : ScoreInv (tick c w) := by
  obtain ⟨hp, h0, h1⟩ := h
  cases hst : w.G.state
  · cases hsd : w.space_down
    · have := (tick_menu_G c w hst).2 hsd
      refine ⟨?_, by rw [this.2.1]; exact h0, by rw [this.2.2]; exact h1⟩
      intro hplay
      rw [this.1] at hplay
      cases hplay
    · have := (tick_menu_G c w hst).1 hsd
      refine ⟨?_, by rw [this.2.1]; decide, by rw [this.2.2]; decide⟩
      intro _
      rw [this.2.1, this.2.2]
      exact ⟨by decide, by decide⟩
  · have hlt := hp hst
    rw [tick_play c w hst]
    have hsc := update_game_scores c w
    refine ⟨update_game_play_scores c w, ?_, ?_⟩ <;> omega
  · have := tick_over_G c w hst
    refine ⟨fun hplay => absurd hplay this.1, by rw [this.2.1]; exact h0,
      by rw [this.2.2]; exact h1⟩

theorem run_scoreInv (c : Libc) (steps : List Step) : ∀ (w : World), ScoreInv w →
    ScoreInv (run c steps w) := by
  induction steps with
  | nil => intro w h; exact h
  | cons s ss ih =>
    intro w h
    cases s with
    | key e =>
      have hk : ScoreInv (on_key e w) := by
        unfold ScoreInv at h ⊢
        rw [on_key_G]
        exact h
      exact ih _ hk
    | frame => exact ih _ (tick_scoreInv c w h)

/-- C4: in every run of host events that starts with scores (0, 0), as a
fresh round does, every state reached has both scores at most 10; in
every reached Play state both scores are below 10, and the next tick enters
GameOver exactly when it brings a score to 10 and stays in Play exactly when
both scores stay below 10; and in every reached GameOver state the next tick
leaves both scores unchanged. -/
theorem match_end (c : Libc) (w0 : World) (steps : List Step)
    (h0 : w0.G.bats0.score = 0) (h1 : w0.G.bats1.score = 0) :
    ((run c steps w0).G.bats0.score ≤ 10 ∧ (run c steps w0).G.bats1.score ≤ 10) ∧
    ((run c steps w0).G.state = State.ST_PLAY →
      ((run c steps w0).G.bats0.score < 10 ∧ (run c steps w0).G.bats1.score < 10) ∧
      ((tick c (run c steps w0)).G.state = State.ST_OVER ↔
        ((tick c (run c steps w0)).G.bats0.score = 10 ∨
         (tick c (run c steps w0)).G.bats1.score = 10)) ∧
      ((tick c (run c steps w0)).G.state = State.ST_PLAY ↔
        ((tick c (run c steps w0)).G.bats0.score < 10 ∧
         (tick c (run c steps w0)).G.bats1.score < 10))) ∧
    ((run c steps w0).G.state = State.ST_OVER →
      (tick c (run c steps w0)).G.bats0.score = (run c steps w0).G.bats0.score ∧
      (tick c (run c steps w0)).G.bats1.score = (run c steps w0).G.bats1.score) := by
  have hinv0 : ScoreInv w0 := by
    refine ⟨fun _ => ?_, ?_, ?_⟩
    · rw [h0, h1]; exact ⟨by decide, by decide⟩
    · rw [h0]; decide
    · rw [h1]; decide
  have hinv := run_scoreInv c steps w0 hinv0
  have hinv2 := tick_scoreInv c _ hinv
  refine ⟨hinv.2, ?_, ?_⟩
  · intro hst
    have hlt := hinv.1 hst
    have hph := update_game_phase c _ hst
    rw [← tick_play c _ hst] at hph
    refine ⟨hlt, ?_, ?_⟩
    · rw [hph]
      constructor
      · intro h
        split_ifs at h with hs
        have := hinv2.2
        omega
      · intro h
        rw [if_pos (by omega)]
    · rw [hph]
      constructor
      · intro h
        split_ifs at h with hs
        omega
      · intro h
        rw [if_neg (by omega)]
  · intro hst
    exact (tick_over_G c _ hst).2

/-! ## Ball speed -/

theorem left_paddle_speed (c : Libc) (w : World) :
    (left_paddle c w).G.ball.speed = w.G.ball.speed + (if left_hit w then 1 else 0) := by
  by_cases h1 : w.G.ball.x - R ≤ w.G.bats0.x + halfW ∧ w.G.ball.prev_x - R > w.G.bats0.x + halfW
  · by_cases h2 : w.G.ball.y - w.G.bats0.y > -halfH ∧ w.G.ball.y - w.G.bats0.y < halfH
    · have e : left_hit w = true := by
        simp only [left_hit, decide_eq_true_eq]; exact ⟨h1, h2⟩
      simp only [left_paddle, if_pos h1, if_pos h2, impact_add_ball, e, if_true]
    · have e : left_hit w = false := by
        simp only [left_hit, decide_eq_false_iff_not]; exact fun h => h2 h.2
      simp only [left_paddle, if_pos h1, if_neg h2, e]; simp
  · have e : left_hit w = false := by
      simp only [left_hit, decide_eq_false_iff_not]; exact fun h => h1 h.1
    simp only [left_paddle, if_neg h1, e]; simp

theorem right_paddle_speed (c : Libc) (w : World) :
    (right_paddle c w).G.ball.speed = w.G.ball.speed + (if right_hit w then 1 else 0) := by
  by_cases h1 : w.G.ball.x + R ≥ w.G.bats1.x - halfW ∧ w.G.ball.prev_x + R < w.G.bats1.x - halfW
  · by_cases h2 : w.G.ball.y - w.G.bats1.y > -halfH ∧ w.G.ball.y - w.G.bats1.y < halfH
    · have e : right_hit w = true := by
        simp only [right_hit, decide_eq_true_eq]; exact ⟨h1, h2⟩
      simp only [right_paddle, if_pos h1, if_pos h2, impact_add_ball, e, if_true]
    · have e : right_hit w = false := by
        simp only [right_hit, decide_eq_false_iff_not]; exact fun h => h2 h.2
      simp only [right_paddle, if_pos h1, if_neg h2, e]; simp
  · have e : right_hit w = false := by
      simp only [right_hit, decide_eq_false_iff_not]; exact fun h => h1 h.1
    simp only [right_paddle, if_neg h1, e]; simp

theorem substep_speed (c : Libc) (w : World) :
    (substep c w).G.ball.speed = w.G.ball.speed + (substep_hits c w : Int) := by
  have hw := (walls_horiz (right_paddle c (left_paddle c (move w)))).2.2
  have hl := left_paddle_speed c (move w)
  have hr := right_paddle_speed c (left_paddle c (move w))
  have hm : (move w).G.ball.speed = w.G.ball.speed := rfl
  simp only [substep, substep_hits]
  rw [hw, hr, hl, hm]
  split_ifs <;> simp
  ring

theorem integrate_speed (c : Libc) (n : Nat) : ∀ (w : World),
    (integrate c n w).G.ball.speed = w.G.ball.speed + (integrate_hits c n w : Int) := by
  induction n with
  | zero => intro w; simp [integrate, integrate_hits]
  | succ n ih =>
    intro w
    rw [integrate, ih, substep_speed, integrate_hits]
    push_cast
    ring

theorem scoring_speed (g : Game) :
    (scoring g).ball.speed = if serves g then 5 else g.ball.speed := by
  simp only [scoring, serves, set_bats, bats, reset_ball_toward]
  split_ifs
  all_goals simp_all

/-- C5 (as claimed, refuted): a Play tick can lower the speed within a round.
From program start, after space, `z` held and 215 frames the round is in Play
with speed 6 and score (0, 1), and the next Play tick serves the ball again at
speed 5; the same happens on the grace-window state `W_serve`. -/
theorem speed_drops_on_serve :
    ((run libc_sample (rally 215) W_init).G.state = State.ST_PLAY ∧
     (run libc_sample (rally 215) W_init).G.ball.speed = 6 ∧
     (update_game libc_sample (run libc_sample (rally 215) W_init)).G.state = State.ST_PLAY ∧
     (update_game libc_sample (run libc_sample (rally 215) W_init)).G.ball.speed = 5) ∧
    (W_serve.G.ball.speed = 6 ∧ (update_game libc_sample W_serve).G.ball.speed = 5) := by
  decide!

/-- C5 (amended): for every Play tick, the speed at the scoring check equals
the speed before the tick plus the number of paddle hits of the tick's
sub-steps (each sub-step adds exactly 1 per paddle hit, the wall block adds
nothing); the tick ends with that speed unless the scoring block re-serves the
ball, in which case it ends with speed 5; so on every tick that does not
re-serve the ball the speed does not decrease. -/
theorem speed_per_tick (c : Libc) (w : World) :
    (substep c w).G.ball.speed = w.G.ball.speed + (substep_hits c w : Int) ∧
    (walls w).G.ball.speed = w.G.ball.speed ∧
    (pre_score c w).G.ball.speed =
      w.G.ball.speed + (integrate_hits c w.G.ball.speed.toNat (paddles w) : Int) ∧
    (update_game c w).G.ball.speed =
      (if serves (pre_score c w).G then 5
       else w.G.ball.speed + (integrate_hits c w.G.ball.speed.toNat (paddles w) : Int)) ∧
    (serves (pre_score c w).G = false → w.G.ball.speed ≤ (update_game c w).G.ball.speed) := by
  have hpre : (pre_score c w).G.ball.speed =
      w.G.ball.speed + (integrate_hits c w.G.ball.speed.toNat (paddles w) : Int) := by
    simp only [pre_score, impacts_update_ball]
    rw [integrate_speed]
    rfl
  have hup : (update_game c w).G.ball.speed =
      (if serves (pre_score c w).G then 5
       else w.G.ball.speed + (integrate_hits c w.G.ball.speed.toNat (paddles w) : Int)) := by
    rw [update_game_G, win_ball, scoring_speed, hpre]
  refine ⟨substep_speed c w, (walls_horiz w).2.2, hpre, hup, ?_⟩
  intro hs
  rw [hup, hs]
  simp

/-! ## Left paddle hit -/

theorem spin_dy_eq (dy d : ℚ) : spin_dy dy d = max (-1) (min 1 (dy + d / 128)) := by
  simp only [spin_dy]
  split_ifs with h1 h2 h3
  · norm_num at h2
  · rw [min_eq_left (le_of_lt h1), max_eq_right (by norm_num)]
  · rw [min_eq_right (not_lt.mp h1), max_eq_left (le_of_lt h3)]
  · rw [min_eq_right (not_lt.mp h1), max_eq_right (not_lt.mp h3)]

theorem normalised_pos (c : Libc) (x y : ℚ) (h : 0 < c.sqrtf (x * x + y * y)) :
    normalised c x y = (x / c.sqrtf (x * x + y * y), y / c.sqrtf (x * x + y * y)) := by
  simp only [normalised]
  rw [if_neg (not_le.mpr h)]

/-- What the left paddle block does when it fires. -/
theorem left_paddle_hit (c : Libc) (m : World)
    (h1 : m.G.ball.x - R ≤ m.G.bats0.x + halfW ∧ m.G.ball.prev_x - R > m.G.bats0.x + halfW)
    (h2 : m.G.ball.y - m.G.bats0.y > -halfH ∧ m.G.ball.y - m.G.bats0.y < halfH) :
    (left_paddle c m).G.ball =
      { m.G.ball with
        dx := (normalised c (-m.G.ball.dx) (spin_dy m.G.ball.dy (m.G.ball.y - m.G.bats0.y))).1
        dy := (normalised c (-m.G.ball.dx) (spin_dy m.G.ball.dy (m.G.ball.y - m.G.bats0.y))).2
        x := m.G.bats0.x + halfW + R
        speed := m.G.ball.speed + 1 } ∧
    (left_paddle c m).G.bats0.timer = 10 ∧
    (left_paddle c m).G.bats0.x = m.G.bats0.x ∧
    (left_paddle c m).G.bats0.y = m.G.bats0.y ∧
    (left_paddle c m).G.bats1 = m.G.bats1 := by
  simp only [left_paddle, if_pos h1, if_pos h2, impact_add_ball, impact_add_bats0,
    impact_add_bats1, and_self]

theorem integrate_y0_range (c : Libc) (n : Nat) (w : World) :
    80 ≤ (integrate c n (paddles w)).G.bats0.y ∧ (integrate c n (paddles w)).G.bats0.y ≤ 400 := by
  have h := integrate_place0 c n (paddles w)
  simp only [Bat.place, Prod.mk.injEq] at h
  rw [h.2.1]
  exact paddles_y0_range w

theorem integrate_court (c : Libc) (n : Nat) (w : World) (hc : Court w.G) :
    Court (integrate c n (paddles w)).G := by
  have h0 := integrate_place0 c n (paddles w)
  have h1 := integrate_place1 c n (paddles w)
  simp only [Bat.place, Prod.mk.injEq] at h0 h1
  exact ⟨h0.1.trans hc.1, h1.1.trans hc.2⟩

/-- A sub-step in which the left paddle block fires, on a state with the paddles
in place and the left paddle within its range, is exactly that block applied
to the moved ball: neither the right paddle block nor a wall block fires. -/
theorem substep_left_hit (c : Libc) (v : World) (hc : Court v.G)
    (hy : 80 ≤ v.G.bats0.y ∧ v.G.bats0.y ≤ 400)
    (h1 : (move v).G.ball.x - R ≤ v.G.bats0.x + halfW ∧
      (move v).G.ball.prev_x - R > v.G.bats0.x + halfW)
    (h2 : (move v).G.ball.y - v.G.bats0.y > -halfH ∧ (move v).G.ball.y - v.G.bats0.y < halfH) :
    (substep c v).G.ball = (left_paddle c (move v)).G.ball ∧
    (substep c v).G.bats0 = (left_paddle c (move v)).G.bats0 := by
  have hl := left_paddle_hit c (move v) h1 h2
  have hr : right_paddle c (left_paddle c (move v)) = left_paddle c (move v) := by
    simp only [right_paddle]
    rw [if_neg]
    intro h
    have hx := h.1
    rw [hl.1, hl.2.2.2.2] at hx
    simp only [R, halfW] at hx
    have e1 : (move v).G.bats1.x = 760 := hc.2
    have e0 : (move v).G.bats0.x = 40 := hc.1
    rw [e1, e0] at hx
    norm_num at hx
  have hyb : (left_paddle c (move v)).G.ball.y = (move v).G.ball.y := by rw [hl.1]
  have ht : wall_top (left_paddle c (move v)).G = (left_paddle c (move v)).G := by
    simp only [wall_top]
    rw [if_neg]
    rw [hyb]
    simp only [R, halfH] at h2 ⊢
    intro h
    linarith [h2.1, hy.1]
  have hbt : wall_bottom (left_paddle c (move v)).G = (left_paddle c (move v)).G := by
    simp only [wall_bottom]
    rw [if_neg]
    rw [hyb]
    simp only [R, halfH, HEIGHT] at h2 ⊢
    intro h
    norm_num at h
    linarith [h2.2, hy.2]
  simp only [substep, hr, walls, ht, hbt, and_self]

/-- The ball and the left timer after a sub-step in which the left paddle block
fires, for any C library: `(dx, dy)` is what `normalised` returns for the
negated `dx` and the spun, clamped `dy`. -/
theorem left_hit_substep (c : Libc) (v : World) (hc : Court v.G)
    (hy : 80 ≤ v.G.bats0.y ∧ v.G.bats0.y ≤ 400)
    (hprev : (move v).G.ball.prev_x - 7 > v.G.bats0.x + 9)
    (hcur : (move v).G.ball.x - 7 ≤ v.G.bats0.x + 9)
    (hlo : -64 < (move v).G.ball.y - v.G.bats0.y)
    (hhi : (move v).G.ball.y - v.G.bats0.y < 64) :
    (substep c v).G.ball.dx =
      (normalised c (-v.G.ball.dx)
        (max (-1) (min 1 (v.G.ball.dy + ((move v).G.ball.y - v.G.bats0.y) / 128)))).1 ∧
    (substep c v).G.ball.dy =
      (normalised c (-v.G.ball.dx)
        (max (-1) (min 1 (v.G.ball.dy + ((move v).G.ball.y - v.G.bats0.y) / 128)))).2 ∧
    (substep c v).G.ball.x = v.G.bats0.x + 16 ∧
    (substep c v).G.ball.speed = v.G.ball.speed + 1 ∧
    (substep c v).G.bats0.timer = 10 := by
  have h1 : (move v).G.ball.x - R ≤ v.G.bats0.x + halfW ∧
      (move v).G.ball.prev_x - R > v.G.bats0.x + halfW := by
    simp only [R, halfW]; exact ⟨hcur, hprev⟩
  have h2 : (move v).G.ball.y - v.G.bats0.y > -halfH ∧
      (move v).G.ball.y - v.G.bats0.y < halfH := by
    simp only [halfH]; exact ⟨hlo, hhi⟩
  have hsub := substep_left_hit c v hc hy h1 h2
  have hl := left_paddle_hit c (move v) h1 h2
  have hspin : spin_dy (move v).G.ball.dy ((move v).G.ball.y - (move v).G.bats0.y) =
      max (-1) (min 1 (v.G.ball.dy + ((move v).G.ball.y - v.G.bats0.y) / 128)) := by
    rw [spin_dy_eq]; rfl
  have hneg : -(move v).G.ball.dx = -v.G.ball.dx := rfl
  rw [hspin, hneg] at hl
  have hball := hsub.1.trans hl.1
  refine ⟨by rw [hball], by rw [hball], ?_, ?_, ?_⟩
  · rw [hball]
    show (move v).G.bats0.x + halfW + R = v.G.bats0.x + 16
    simp only [halfW, R]
    show v.G.bats0.x + 9 + 7 = v.G.bats0.x + 16
    ring
  · rw [hball]; rfl
  · rw [hsub.2]; exact hl.2.1

/-- No rational number has square 17/16. -/
theorem no_rat_root_17_16 (q : ℚ) : q * q ≠ 17 / 16 := by
  intro h
  have h17 : IsSquare ((17 : ℕ) : ℚ) := ⟨4 * q, by push_cast; linear_combination (-16) * h⟩
  rw [Rat.isSquare_natCast_iff] at h17
  revert h17
  decide!

/-- Instance of C2 at `W_exit`: the ball exits left with the left timer at -1 and
scores (0, 0); the scores become (0, 1), the left timer 20, and the scores stay
so over the next 20 frames. -/
theorem score_once_per_exit_witness :
    (W_exit.G.state = State.ST_PLAY ∧ Court W_exit.G ∧
      OutL (pre_score libc_sample W_exit).G ∧
      (pre_score libc_sample W_exit).G.bats0.timer = -1 ∧
      W_exit.G.bats0.score = 0 ∧ W_exit.G.bats1.score = 0) ∧
    ((tick libc_sample W_exit).G.bats1.score = 0 + 1 ∧
      (tick libc_sample W_exit).G.bats0.score = 0 ∧
      (tick libc_sample W_exit).G.bats0.timer = 20 ∧
      (tick libc_sample W_exit).G.ball = (pre_score libc_sample W_exit).G.ball) ∧
    ((run libc_sample (List.replicate 20 Step.frame) (tick libc_sample W_exit)).G.bats0.score =
        (tick libc_sample W_exit).G.bats0.score ∧
      (run libc_sample (List.replicate 20 Step.frame) (tick libc_sample W_exit)).G.bats1.score =
        (tick libc_sample W_exit).G.bats1.score) := by
  have h := (score_once_per_exit libc_sample W_exit (List.replicate 20 Step.frame)
    (by decide!) (by decide!)).1 (by decide!) (by decide!)
  exact ⟨by decide!, h.1, h.2 (by decide!) (by decide!)⟩

/-- Instance of C3 at the state right after the score tick of `W_exit`: still
off the field after 19 frames, served toward the left on the 20th. -/
theorem delayed_serve_witness :
    ((tick libc_sample W_exit).G.state = State.ST_PLAY ∧ Court (tick libc_sample W_exit).G ∧
      (tick libc_sample W_exit).G.bats0.timer = 20 ∧ OutL (tick libc_sample W_exit).G) ∧
    (run libc_sample (List.replicate 19 Step.frame) (tick libc_sample W_exit)).G.ball.x + 7 < 0 ∧
    ((run libc_sample (List.replicate 20 Step.frame) (tick libc_sample W_exit)).G.ball.x = 400 ∧
      (run libc_sample (List.replicate 20 Step.frame) (tick libc_sample W_exit)).G.ball.y = 240 ∧
      (run libc_sample (List.replicate 20 Step.frame) (tick libc_sample W_exit)).G.ball.dx = -1 ∧
      (run libc_sample (List.replicate 20 Step.frame) (tick libc_sample W_exit)).G.ball.dy = 0 ∧
      (run libc_sample (List.replicate 20 Step.frame) (tick libc_sample W_exit)).G.ball.speed
        = 5) :=
  ⟨by decide!,
   ((delayed_serve libc_sample (tick libc_sample W_exit) (List.replicate 19 Step.frame)
      (by decide!) (by decide!) (by decide!) (by decide!)).1 (by decide!) (by decide!)).1
      (by decide),
   ((delayed_serve libc_sample (tick libc_sample W_exit) (List.replicate 20 Step.frame)
      (by decide!) (by decide!) (by decide!) (by decide!)).1 (by decide!) (by decide!)).2
      (by decide)⟩

/-- Instance of C4 at the fresh round `W_fresh`, over 300 frames. -/
theorem match_end_witness :
    (W_fresh.G.state = State.ST_PLAY ∧ W_fresh.G.bats0.score = 0 ∧ W_fresh.G.bats1.score = 0) ∧
    ((run libc_sample (List.replicate 300 Step.frame) W_fresh).G.bats0.score ≤ 10 ∧
      (run libc_sample (List.replicate 300 Step.frame) W_fresh).G.bats1.score ≤ 10) :=
  ⟨by decide!,
   (match_end libc_sample W_fresh (List.replicate 300 Step.frame) (by decide!) (by decide!)).1⟩

/-- The tenth point: from `W_match_point` one tick brings the score to (0, 10) and
the phase to GameOver, and a further tick changes neither. -/
theorem match_point_example :
    (tick libc_sample W_match_point).G.state = State.ST_OVER ∧
    (tick libc_sample W_match_point).G.bats1.score = 10 ∧
    (tick libc_sample (tick libc_sample W_match_point)).G.state = State.ST_OVER ∧
    (tick libc_sample (tick libc_sample W_match_point)).G.bats1.score = 10 := by
  decide!

/-- Instance of C9 at the empty collection of `G_init` and `ops_sample`. -/
theorem impact_collection_witness :
    G_init.nImpacts = 0 ∧
    (live (run_ops ops_sample G_init)).length ≤ 64 ∧
    live (impact_add 5 6 (run_ops ops_sample G_init)) =
      live (run_ops ops_sample G_init) ++ [{ x := 5, y := 6, time := 0 }] ∧
    live (run_ops ops_sample G_init) = [{ x := 1, y := 2, time := 2 }, { x := 3, y := 4, time := 1 }] :=
  ⟨rfl,
   (impact_collection_bounded_and_aged G_init rfl ops_sample 5 6).2.1,
   (impact_collection_bounded_and_aged G_init rfl ops_sample 5 6).2.2.1 (by decide!),
   by decide!⟩

theorem reset_ball_toward_ball (loser : Int) (g : Game) :
    (reset_ball_toward loser g).ball = served loser := by
  simp [reset_ball_toward, served, WIDTH, HEIGHT]
  norm_num

/-- C11 (as claimed, refuted): in the Play tick of `W_serve` the ball is off
the field on the left at the scoring check (x = -127) and the left paddle's
timer is exactly 0 there, and the ball-reset branch fires: the tick ends with
the ball at (400, 240), `dx = -1`, speed 5, not where integration left it. -/
theorem reset_fires_at_timer_zero :
    out_left (pre_score libc_sample W_serve).G = true ∧
    (pre_score libc_sample W_serve).G.bats0.timer = 0 ∧
    (pre_score libc_sample W_serve).G.ball.x = -127 ∧
    (pre_score libc_sample W_serve).G.ball.speed = 6 ∧
    (update_game libc_sample W_serve).G.ball.x = 400 ∧
    (update_game libc_sample W_serve).G.ball.y = 240 ∧
    (update_game libc_sample W_serve).G.ball.dx = -1 ∧
    (update_game libc_sample W_serve).G.ball.speed = 5 ∧
    (update_game libc_sample W_serve).G.ball ≠ (pre_score libc_sample W_serve).G.ball := by
  decide!

/-- C11 (amended): for every Play tick at whose scoring check the ball is off
the field and the conceding paddle's timer is exactly 0, the score-increment
branch does not fire (both scores and the conceding paddle's timer stay as
they are at the check) and the ball-reset branch fires (the ball goes to
(400, 240) with `dy = 0`, speed 5 and `dx = -1` when the left paddle
conceded, `dx = +1` when the right one did); when the conceding paddle's
timer is strictly positive at the check, neither branch fires: scores, timer
and ball are left as the integration step produced them. -/
theorem scoring_check_timer_zero_or_above (c : Libc) (w : World) :
    ((pre_score c w).G.ball.x + 7 < 0 → (pre_score c w).G.bats0.timer = 0 →
      (update_game c w).G.ball = served 0 ∧
      (update_game c w).G.bats0.score = w.G.bats0.score ∧
      (update_game c w).G.bats1.score = w.G.bats1.score ∧
      (update_game c w).G.bats0.timer = 0) ∧
    ((pre_score c w).G.ball.x - 7 > 800 → (pre_score c w).G.bats1.timer = 0 →
      (update_game c w).G.ball = served 1 ∧
      (update_game c w).G.bats0.score = w.G.bats0.score ∧
      (update_game c w).G.bats1.score = w.G.bats1.score ∧
      (update_game c w).G.bats1.timer = 0) ∧
    ((pre_score c w).G.ball.x + 7 < 0 → 0 < (pre_score c w).G.bats0.timer →
      (update_game c w).G.ball = (pre_score c w).G.ball ∧
      (update_game c w).G.bats0.score = w.G.bats0.score ∧
      (update_game c w).G.bats1.score = w.G.bats1.score ∧
      (update_game c w).G.bats0.timer = (pre_score c w).G.bats0.timer) ∧
    ((pre_score c w).G.ball.x - 7 > 800 → 0 < (pre_score c w).G.bats1.timer →
      (update_game c w).G.ball = (pre_score c w).G.ball ∧
      (update_game c w).G.bats0.score = w.G.bats0.score ∧
      (update_game c w).G.bats1.score = w.G.bats1.score ∧
      (update_game c w).G.bats1.timer = (pre_score c w).G.bats1.timer) := by
  have h0 := pre_score_score0 c w
  have h1 := pre_score_score1 c w
  refine ⟨?_, ?_, ?_, ?_⟩
  · intro ho ht
    rw [update_game_G, win_ball, win_bats0, win_bats1, scoring_left_serve _ ho ht]
    exact ⟨reset_ball_toward_ball 0 _, h0, h1, ht⟩
  · intro ho ht
    rw [update_game_G, win_ball, win_bats0, win_bats1, scoring_right_serve _ ho ht]
    exact ⟨reset_ball_toward_ball 1 _, h0, h1, ht⟩
  · intro ho ht
    rw [update_game_G, win_ball, win_bats0, win_bats1, scoring_left_wait _ ho ht]
    exact ⟨rfl, h0, h1, rfl⟩
  · intro ho ht
    rw [update_game_G, win_ball, win_bats0, win_bats1, scoring_right_wait _ ho ht]
    exact ⟨rfl, h0, h1, rfl⟩

/-- Instance of C11 (amended) at `W_serve`: timer 0 at the check, the ball is
served toward the left and the scores stay (0, 1). -/
theorem scoring_check_timer_zero_witness :
    ((pre_score libc_sample W_serve).G.ball.x + 7 < 0 ∧
      (pre_score libc_sample W_serve).G.bats0.timer = 0) ∧
    ((update_game libc_sample W_serve).G.ball = served 0 ∧
      (update_game libc_sample W_serve).G.bats0.score = W_serve.G.bats0.score ∧
      (update_game libc_sample W_serve).G.bats1.score = W_serve.G.bats1.score ∧
      (update_game libc_sample W_serve).G.bats0.timer = 0) :=
  ⟨by decide!,
   (scoring_check_timer_zero_or_above libc_sample W_serve).1 (by decide!) (by decide!)⟩

end Pong
